import Mathlib

/-!
Verification development for the incremental Tesla solar/powerwall export
engine (`tesla_solar_download.py`).

Modelling conventions:
* A naive local wall-clock datetime is an `Int`, counting seconds from the
  epoch 1970-01-01 00:00:00 (wall clock).  One calendar day is exactly 86400
  wall-clock seconds, so `replace(hour=0, minute=0, second=0)` is "subtract
  `w % 86400`" and `timedelta(days=1)` arithmetic on a naive datetime is
  "subtract 86400".
* An aware datetime (Python `datetime` with a pytz fixed-offset `tzinfo`) is a
  pair of its wall clock `w : Int` and its UTC offset `off : Int` (seconds
  east); the instant it denotes is `w - off`.  Python compares aware datetimes
  by instant; `replace` and `timedelta` arithmetic keep the offset; pytz
  `localize` replaces the offset by the zone's offset for that wall clock.
* A timezone is a bounded function from naive wall clock to offset
  (`TZ.off`), modelling `pytz.timezone(tz).localize`; real offsets are within
  fourteen hours (50400 s) of UTC either way, which the structure records
  for termination proofs.
* Records returned by the API are association lists from field name to an
  integer value; the `timestamp` field holds an abstract value and the
  `parse(...).strftime(...)` renormalisation is an abstract function
  `ren : Int -> Int` applied to it.
-/

namespace TeslaSolar

/-! ### Plain character-list string predicates (for the `'.partial.csv' in fname`
containment test of `_delete_partial_*_files`). -/

/-- `strStartsWith p s` is true when `p` is an initial segment of `s`. -/
def strStartsWith : List Char → List Char → Bool
  | [], _ => true
  | _ :: _, [] => false
  | p :: ps, c :: cs => p = c && strStartsWith ps cs

/-- `strHasSub p s` is Python's `p in s` substring containment. -/
def strHasSub (p : List Char) : List Char → Bool
  | [] => strStartsWith p []
  | c :: cs => strStartsWith p (c :: cs) || strHasSub p cs

/-- `strEndsWith p s` is true when `p` is a final segment of `s`. -/
def strEndsWith (p s : List Char) : Bool :=
  strStartsWith p.reverse s.reverse

/-! ### Civil (Gregorian) calendar, mirroring Python `datetime`'s calendar.
`civilFromDays z` converts a day number (days since 1970-01-01) to
`(year, month, day-of-month)`, iterating over the 400-year Gregorian cycle
starting from a cycle boundary (a "march year" runs 1 March .. 28/29 Feb). -/

/-- Gregorian leap-year test. -/
def isLeap (y : Int) : Bool :=
  (y % 4 = 0 && !(y % 100 = 0)) || y % 400 = 0

/-- Length of march-based month `mp` (0 = March, ..., 11 = February). -/
def mpLen (febLen : Nat) : Nat → Nat
  | 0 => 31 | 1 => 30 | 2 => 31 | 3 => 30 | 4 => 31 | 5 => 31
  | 6 => 30 | 7 => 31 | 8 => 30 | 9 => 31 | 10 => 31 | _ => febLen

/-- Number of days in the march-based year starting 1 March of year `my`
(it contains February of `my + 1`). -/
def yearLen (my : Int) : Nat :=
  if isLeap (my + 1) then 366 else 365

/-- Walk year by year inside one 400-year cycle: from march-year `my` with
`r` days remaining, find the march-year containing the day and the day-of-year. -/
def findYear : Nat → Int → Nat → Int × Nat
  | 0, my, r => (my, r)
  | fuel + 1, my, r =>
    if r < yearLen my then (my, r) else findYear fuel (my + 1) (r - yearLen my)

/-- Walk month by month inside one march-based year: from march-month `mp` with
`r` days remaining, find the month containing the day and the day index. -/
def findMonth (febLen : Nat) : Nat → Nat → Nat → Nat × Nat
  | 0, mp, r => (mp, r)
  | fuel + 1, mp, r =>
    if r < mpLen febLen mp then (mp, r)
    else findMonth febLen fuel (mp + 1) (r - mpLen febLen mp)

/-- `civilFromDays z = (y, m, d)`: the Gregorian date of day number `z`
(days since 1970-01-01); `m` is 1..12 and `d` is 1-based. -/
def civilFromDays (z : Int) : Int × Nat × Nat :=
  let z2 := z + 719468
  let era := z2 / 146097
  let doe := (z2 % 146097).toNat
  let p := findYear 400 (era * 400) doe
  let febLen := if isLeap (p.1 + 1) then 29 else 28
  let q := findMonth febLen 12 0 p.2
  let m := if q.1 < 10 then q.1 + 3 else q.1 - 9
  ((if m ≤ 2 then p.1 + 1 else p.1), m, q.2 + 1)

/-- Wall clock of local midnight of the day containing wall clock `w`:
`date.replace(hour=0, minute=0, second=0)` in the seconds model. -/
def dayStart (w : Int) : Int := w - w % 86400

/-- Day-of-month (`date.day` in Python) of the day containing wall clock `w`. -/
def domOfWall (w : Int) : Int := ((civilFromDays (w / 86400)).2.2 : Int)

/-- Wall clock of local midnight of the first day of the month containing `w`:
`date.replace(hour=0, minute=0, second=0) - timedelta(days=date.day - 1)`. -/
def monthStartWall (w : Int) : Int := dayStart w - 86400 * (domOfWall w - 1)

theorem civilFromDays_d_pos (z : Int) : 1 ≤ (civilFromDays z).2.2 := by
  unfold civilFromDays
  dsimp only
  omega

theorem dayStart_le (w : Int) : dayStart w ≤ w := by
  unfold dayStart
  omega

theorem monthStartWall_le_dayStart (w : Int) : monthStartWall w ≤ dayStart w := by
  have h := civilFromDays_d_pos (w / 86400)
  unfold monthStartWall domOfWall
  omega

theorem monthStartWall_le (w : Int) : monthStartWall w ≤ w := by
  have h1 := monthStartWall_le_dayStart w
  have h2 := dayStart_le w
  omega

/-! ### Timezones -/

/-- A timezone: `off w` is the UTC offset (seconds east) that
`pytz.timezone(...).localize` assigns to the naive wall clock `w`.  Real zone
offsets are within fourteen hours of UTC, recorded by `bounded`. -/
structure TZ where
  off : Int → Int
  bounded : ∀ w, (off w).natAbs ≤ 50400

/-- The UTC timezone (offset zero everywhere). -/
def utcTZ : TZ := ⟨fun _ => 0, fun _ => Nat.zero_le _⟩

/-! ### Bucket sequencer, day mode (`_download_power_data`, lines 278-302).

The loop variable is an aware datetime: it starts at today's local midnight
carrying `off0`, the offset `datetime.now(tz)` produced for the current
instant (`replace(hour=0, ...)` keeps that offset), and after each
`date -= timedelta(days=1)` it is re-localized, so subsequent iterations carry
`tz.off` of their own wall clock.  The guard `date > installation_date`
compares instants: `wall - off > inst`. -/

/-- Wall-clock midnights visited from `w` (already localized) onwards. -/
def powerDatesFrom (tz : TZ) (inst : Int) (w : Int) : List Int :=
  if w - tz.off w > inst then w :: powerDatesFrom tz inst (w - 86400) else []
termination_by (w - inst + 50401).toNat
decreasing_by
  have hb := tz.bounded w
  omega

/-- The full day-bucket wall-clock sequence produced by the
`_download_power_data` loop: first check uses the stale `off0`, later checks
use the re-localized offset. -/
def powerDates (tz : TZ) (inst W off0 : Int) : List Int :=
  if dayStart W - off0 > inst then
    dayStart W :: powerDatesFrom tz inst (dayStart W - 86400)
  else []

/-! ### Bucket sequencer, month mode (`_download_energy_data`, lines 120-156).

Each bucket is the aware pair (start, end); `sw`/`soff` are the start's wall
clock and offset, `ew`/`eoff` the end's.  The next bucket's end is
`start - timedelta(seconds=1)` (keeping the start's offset, line 152) and its
start is the first of that month, re-localized (lines 153-156).  The guard is
`end_date > installation_date`, i.e. `ew - eoff > inst`. -/

/-- One month bucket as the pair of aware datetimes the loop manipulates. -/
structure EBucket where
  sw : Int
  soff : Int
  ew : Int
  eoff : Int
deriving DecidableEq, Repr

/-- Month buckets emitted from state `(sw, soff, ew, eoff)` onwards.  The
propositional arguments record what the source guarantees (start at or before
end, offsets within fourteen hours) and only feed the termination measure. -/
def energyFrom (tz : TZ) (inst : Int) (sw soff ew eoff : Int)
    (hse : sw ≤ ew) (hs : soff.natAbs ≤ 50400) (he : eoff.natAbs ≤ 50400) :
    List EBucket :=
  if ew - eoff > inst then
    ⟨sw, soff, ew, eoff⟩ ::
      energyFrom tz inst (monthStartWall (sw - 1)) (tz.off (monthStartWall (sw - 1)))
        (sw - 1) soff (monthStartWall_le (sw - 1)) (tz.bounded _) hs
  else []
termination_by (ew - inst + 50401).toNat
decreasing_by
  omega

/-- The full month-bucket sequence produced by the `_download_energy_data`
loop: the first bucket runs from the first of the current month (offset still
`off0`, line 125 does not re-localize) to today 23:59:59 (offset `off0`). -/
def energyBuckets (tz : TZ) (inst W off0 : Int) (h0 : off0.natAbs ≤ 50400) :
    List EBucket :=
  energyFrom tz inst (monthStartWall W) off0 (dayStart W + 86399) off0
    (le_trans (monthStartWall_le_dayStart W) (by omega)) h0 h0

/-! ### Records and the CSV writers (`_write_energy_csv`, `_write_power_csv`,
`_write_soe_csv`, `_get_fieldnames_from_series`, `_remove_excluded_columns`). -/

/-- One API record: a Python dict in insertion order, field name to value. -/
abbrev Rec := List (String × Int)

/-- One written CSV row: each column of the header paired with its cell
(`none` renders as the empty cell, `csv.DictWriter`'s `restval`). -/
abbrev Row := List (String × Option Int)

/-- Python `d[k]` lookup (`none` models a `KeyError`). -/
def recFind : Rec → String → Option Int
  | [], _ => none
  | (k, v) :: r, key => if k = key then some v else recFind r key

/-- Python `d[k] = v`: overwrite in place, or append as the newest key. -/
def recSet : Rec → String → Int → Rec
  | [], key, v => [(key, v)]
  | (k, w) :: r, key, v =>
    if k = key then (k, v) :: r else (k, w) :: recSet r key v

/-- Python `del d[k]` (dicts carry a key at most once). -/
def recDel : Rec → String → Rec
  | [], _ => []
  | (k, w) :: r, key => if k = key then r else (k, w) :: recDel r key

/-- The `EXCLUDED_COLUMNS` tuple, lines 30-39. -/
def EXCLUDED_COLUMNS : List String :=
  ["grid_services_power", "generator_power", "generator_energy_exported",
   "grid_services_energy_imported", "grid_services_energy_exported",
   "grid_energy_exported_from_generator", "battery_energy_imported_from_generator",
   "consumer_energy_imported_from_generator"]

/-- `_remove_excluded_columns` (lines 42-45). -/
def remove_excluded_columns (r : Rec) : Rec :=
  EXCLUDED_COLUMNS.foldl recDel r

/-- `_get_fieldnames_from_series` (lines 54-59): the union of all keys over
all records, in first-seen order. -/
def get_fieldnames_from_series (ts : List Rec) : List String :=
  ts.foldl (fun acc r =>
    r.foldl (fun a kv => if kv.1 ∈ a then a else a ++ [kv.1]) acc) []

/-- The Python exceptions this program raises or meets. -/
inductive PyErr where
  | valueError (msg : String)
  | keyError (k : String)
  | apiError (code : Nat)
deriving DecidableEq, Repr

/-- Outcome of one `_write_*_csv` call, tracking the on-disk effect: the empty
check fires before the file is opened (`noFile`); a per-record exception
leaves the file holding the header and the rows written so far (`partFile`). -/
inductive WResult where
  | noFile (e : PyErr)
  | partFile (flds : List String) (rows : List Row) (e : PyErr)
  | complete (flds : List String) (rows : List Row)
deriving DecidableEq, Repr

/-- The cell a record contributes to each header column: present value or
empty (`csv.DictWriter` with `restval` empty and `extrasaction` ignore). -/
def rowOf (flds : List String) (r : Rec) : Row :=
  flds.map (fun f => (f, recFind r f))

/-- Cell of a written row at column `key` (first occurrence; `none` when the
column is absent or the cell is empty). -/
def rowVal : Row → String → Option Int
  | [], _ => none
  | (k, v) :: r, key => if k = key then v else rowVal r key

/-- Per-record body of the `_write_power_csv` loop (lines 191-200): normalize
the timestamp in place, derive `load_power` from the four summands (read
before exclusion), then drop the excluded columns.  A missing key is the
`KeyError` Python raises at that line. -/
def procPowerRec (ren : Int → Int) (r : Rec) : Except PyErr Rec :=
  match recFind r "timestamp" with
  | none => .error (.keyError "timestamp")
  | some tv =>
    let r1 := recSet r "timestamp" (ren tv)
    match recFind r1 "solar_power" with
    | none => .error (.keyError "solar_power")
    | some s =>
      match recFind r1 "battery_power" with
      | none => .error (.keyError "battery_power")
      | some b =>
        match recFind r1 "grid_power" with
        | none => .error (.keyError "grid_power")
        | some g =>
          match recFind r1 "generator_power" with
          | none => .error (.keyError "generator_power")
          | some gn =>
            .ok (remove_excluded_columns
              (recSet r1 "load_power" (s + b + g + gn)))

/-- Per-record body of the `_write_energy_csv` / `_write_soe_csv` loops
(lines 73-76 and 214-217): normalize the timestamp, drop excluded columns. -/
def procPlainRec (ren : Int → Int) (r : Rec) : Except PyErr Rec :=
  match recFind r "timestamp" with
  | none => .error (.keyError "timestamp")
  | some tv =>
    .ok (remove_excluded_columns (recSet r "timestamp" (ren tv)))

/-- Row-writing loop: rows already emitted stay in the file when a later
record raises. -/
def writeRows (flds : List String) (proc : Rec → Except PyErr Rec) :
    List Rec → Except (List Row × PyErr) (List Row)
  | [] => .ok []
  | r :: rest =>
    match proc r with
    | .error e => .error ([], e)
    | .ok r2 =>
      match writeRows flds proc rest with
      | .ok rows => .ok (rowOf flds r2 :: rows)
      | .error (rows, e) => .error (rowOf flds r2 :: rows, e)

/-- `_write_power_csv` (lines 180-200): empty check, header = first-seen union
of keys plus `load_power` minus the excluded columns, then the row loop. -/
def write_power_csv (ren : Int → Int) (ts : List Rec) : WResult :=
  if ts.isEmpty then .noFile (.valueError "No timeseries")
  else
    let flds := (get_fieldnames_from_series ts ++ ["load_power"]).filter
      (fun n => !(EXCLUDED_COLUMNS.contains n))
    match writeRows flds (procPowerRec ren) ts with
    | .ok rows => .complete flds rows
    | .error (rows, e) => .partFile flds rows e

/-- `_write_energy_csv` (lines 62-76): as the power writer, without the
derived column. -/
def write_energy_csv (ren : Int → Int) (ts : List Rec) : WResult :=
  if ts.isEmpty then .noFile (.valueError "No timeseries")
  else
    let flds := (get_fieldnames_from_series ts).filter
      (fun n => !(EXCLUDED_COLUMNS.contains n))
    match writeRows flds (procPlainRec ren) ts with
    | .ok rows => .complete flds rows
    | .error (rows, e) => .partFile flds rows e

/-- `_write_soe_csv` (lines 203-217): textually identical to the energy
writer. -/
def write_soe_csv (ren : Int → Int) (ts : List Rec) : WResult :=
  write_energy_csv ren ts

/-! ### The retry decorator.

Modelled from the spec: the `@retry(tries=2, delay=5)` decorator wraps each
bucket download; the `retry` package is an external dependency, not part of
this repository, so its contract is taken from the spec -- at most two
attempts, a fixed five-second sleep between them, the second failure
re-raised unmodified.  An attempt is a state transformer (the wrapped
functions also write files) indexed by the attempt number. -/

/-- Result of a retried call: final state, final outcome, the attempt indices
actually run, and the sleeps inserted between attempts. -/
structure RetryRes (σ E A : Type) where
  st : σ
  res : Except E A
  tried : List Nat
  delays : List Nat
deriving Repr

/-- `@retry(tries=2, delay=5)`: run attempt 0; on an exception sleep 5 and run
attempt 1, whose outcome (success or exception) is final. -/
def retry2 {σ E A : Type} (f : Nat → σ → σ × Except E A) (s : σ) :
    RetryRes σ E A :=
  match f 0 s with
  | (s1, .ok a) => ⟨s1, .ok a, [0], []⟩
  | (s1, .error _) => ⟨(f 1 s1).1, (f 1 s1).2, [0, 1], [5]⟩

/-! ### File paths and the filesystem.

A bucket file path is `download/<site_id>/<kind>/<label><suffix>`: the
structured form keeps the site, the kind (subdirectory), the calendar label
(`%Y-%m-%d` for day buckets, `%Y-%m` for month buckets, rendered here as the
numeric fields, with `d = 0` for month labels) and whether the name carries
the `.partial` suffix.  The filesystem is a finite map from paths to file
contents (header line plus rows). -/

/-- The three data kinds. -/
inductive Kind where
  | energy
  | power
  | soe
deriving DecidableEq, Repr

/-- A structured bucket file path. -/
structure FPath where
  site : Nat
  kind : Kind
  y : Int
  m : Nat
  d : Nat
  part : Bool
deriving DecidableEq, Repr

/-- `_get_power_csv_name` (lines 168-171): label is `date.strftime('%Y-%m-%d')`
of the bucket's wall clock `w`. -/
def get_power_csv_name (siteId : Nat) (w : Int) (pd : Bool) : FPath :=
  ⟨siteId, .power, (civilFromDays (w / 86400)).1,
    (civilFromDays (w / 86400)).2.1, (civilFromDays (w / 86400)).2.2, pd⟩

/-- `_get_soe_csv_name` (lines 174-177). -/
def get_soe_csv_name (siteId : Nat) (w : Int) (pd : Bool) : FPath :=
  ⟨siteId, .soe, (civilFromDays (w / 86400)).1,
    (civilFromDays (w / 86400)).2.1, (civilFromDays (w / 86400)).2.2, pd⟩

/-- `_get_energy_csv_name` (lines 48-51): label is `date.strftime('%Y-%m')` of
the bucket's start wall clock. -/
def get_energy_csv_name (siteId : Nat) (w : Int) (pm : Bool) : FPath :=
  ⟨siteId, .energy, (civilFromDays (w / 86400)).1,
    (civilFromDays (w / 86400)).2.1, 0, pm⟩

/-- The filesystem: path to (header, rows). -/
abbrev FS := List (FPath × List String × List Row)

/-- `os.path.exists`. -/
def fsHas (fs : FS) (p : FPath) : Bool :=
  fs.any (fun e => e.1 == p)

/-- `open(name, 'w')` plus a full header/rows write: truncates any previous
file at that exact path, leaves every other path untouched. -/
def fsWrite (fs : FS) (p : FPath) (flds : List String) (rows : List Row) : FS :=
  fs.filter (fun e => !(e.1 == p)) ++ [(p, flds, rows)]

/-! ### Remote fetch adapter and one-bucket downloads.

The `tesla.api('CALENDAR_HISTORY_DATA', ...)` response for a bucket is
abstracted by an oracle keyed by the bucket's wall clock and the retry
attempt number: `.error e` models the call raising, `.ok none` models a falsy
response or one without a `'time_series'` key, `.ok (some ts)` a response
carrying `ts` (possibly empty). -/

/-- The remote API behaviour for one run. -/
structure Oracle where
  power : Int → Nat → Except PyErr (Option (List Rec))
  soe : Int → Nat → Except PyErr (Option (List Rec))
  energy : Int → Nat → Except PyErr (Option (List Rec))

/-- Observable events of a run, in order: the `print` announcing a bucket,
each API call, and each bucket-level exception caught and logged by the
per-bucket `except` handler. -/
inductive Ev where
  | announced (p : FPath)
  | apiCall (k : Kind) (w : Int) (att : Nat)
  | errCaught (w : Int) (e : PyErr)
deriving DecidableEq, Repr

/-- Run state threaded through downloads: filesystem plus event log. -/
abbrev St := FS × List Ev

/-- One attempt of `_download_power_day` (lines 220-244): call the API; a
falsy or keyless response raises `ValueError`; otherwise `_write_power_csv`
runs, its partial output landing at the bucket's path even when it raises. -/
def attempt_power (o : Oracle) (ren : Int → Int) (siteId : Nat) (w : Int)
    (pd : Bool) (att : Nat) (st : St) : St × Except PyErr Unit :=
  let st1 : St := (st.1, st.2 ++ [.apiCall .power w att])
  match o.power w att with
  | .error e => (st1, .error e)
  | .ok none => (st1, .error (.valueError "No timeseries"))
  | .ok (some ts) =>
    match write_power_csv ren ts with
    | .noFile e => (st1, .error e)
    | .partFile flds rows e =>
      ((fsWrite st1.1 (get_power_csv_name siteId w pd) flds rows, st1.2), .error e)
    | .complete flds rows =>
      ((fsWrite st1.1 (get_power_csv_name siteId w pd) flds rows, st1.2), .ok ())

/-- `_download_power_day` with its `@retry(tries=2, delay=5)` wrapper. -/
def download_power_day (o : Oracle) (ren : Int → Int) (siteId : Nat) (w : Int)
    (pd : Bool) (st : St) : RetryRes St PyErr Unit :=
  retry2 (attempt_power o ren siteId w pd) st

/-- One attempt of `_download_soe_day` (lines 247-270): a falsy or keyless
response is silently accepted (no write, no error); otherwise
`_write_soe_csv` runs -- and raises on an empty series. -/
def attempt_soe (o : Oracle) (ren : Int → Int) (siteId : Nat) (w : Int)
    (pd : Bool) (att : Nat) (st : St) : St × Except PyErr Unit :=
  let st1 : St := (st.1, st.2 ++ [.apiCall .soe w att])
  match o.soe w att with
  | .error e => (st1, .error e)
  | .ok none => (st1, .ok ())
  | .ok (some ts) =>
    match write_soe_csv ren ts with
    | .noFile e => (st1, .error e)
    | .partFile flds rows e =>
      ((fsWrite st1.1 (get_soe_csv_name siteId w pd) flds rows, st1.2), .error e)
    | .complete flds rows =>
      ((fsWrite st1.1 (get_soe_csv_name siteId w pd) flds rows, st1.2), .ok ())

/-- `_download_soe_day` with its retry wrapper. -/
def download_soe_day (o : Oracle) (ren : Int → Int) (siteId : Nat) (w : Int)
    (pd : Bool) (st : St) : RetryRes St PyErr Unit :=
  retry2 (attempt_soe o ren siteId w pd) st

/-- One attempt of `_download_energy_month` (lines 79-97), keyed by the
bucket's start wall clock `sw`. -/
def attempt_energy (o : Oracle) (ren : Int → Int) (siteId : Nat) (sw : Int)
    (pm : Bool) (att : Nat) (st : St) : St × Except PyErr Unit :=
  let st1 : St := (st.1, st.2 ++ [.apiCall .energy sw att])
  match o.energy sw att with
  | .error e => (st1, .error e)
  | .ok none => (st1, .error (.valueError "No timeseries"))
  | .ok (some ts) =>
    match write_energy_csv ren ts with
    | .noFile e => (st1, .error e)
    | .partFile flds rows e =>
      ((fsWrite st1.1 (get_energy_csv_name siteId sw pm) flds rows, st1.2), .error e)
    | .complete flds rows =>
      ((fsWrite st1.1 (get_energy_csv_name siteId sw pm) flds rows, st1.2), .ok ())

/-- `_download_energy_month` with its retry wrapper. -/
def download_energy_month (o : Oracle) (ren : Int → Int) (siteId : Nat)
    (sw : Int) (pm : Bool) (st : St) : RetryRes St PyErr Unit :=
  retry2 (attempt_energy o ren siteId sw pm) st

/-! ### The per-bucket loop bodies and the orchestrating loops. -/

/-- Body of one `_download_power_data` loop iteration (lines 288-297): skip
unless the day is the most recent one or its complete file is absent;
otherwise announce it and run the power then the soe download inside one
`try`, logging a caught exception.  A power failure therefore also skips that
day's soe download. -/
def process_power_day (o : Oracle) (ren : Int → Int) (siteId : Nat) (st : St)
    (w : Int) (pd : Bool) : St :=
  let nameC := get_power_csv_name siteId w false
  if pd || !(fsHas st.1 nameC) then
    let st1 : St := (st.1, st.2 ++ [.announced nameC])
    let r1 := download_power_day o ren siteId w pd st1
    match r1.res with
    | .error e => (r1.st.1, r1.st.2 ++ [.errCaught w e])
    | .ok _ =>
      let r2 := download_soe_day o ren siteId w pd r1.st
      match r2.res with
      | .error e => (r2.st.1, r2.st.2 ++ [.errCaught w e])
      | .ok _ => r2.st
  else st

/-- The `_download_power_data` while loop as a fold over its (oracle- and
filesystem-independent) date sequence; only the head bucket is partial. -/
def run_power_from (o : Oracle) (ren : Int → Int) (siteId : Nat) :
    List Int → Bool → St → St
  | [], _, st => st
  | w :: ws, pd, st =>
    run_power_from o ren siteId ws false (process_power_day o ren siteId st w pd)

/-- `_download_power_data` (lines 273-302) for one site. -/
def download_power_data (o : Oracle) (ren : Int → Int) (siteId : Nat) (tz : TZ)
    (inst W off0 : Int) (fs : FS) : St :=
  run_power_from o ren siteId (powerDates tz inst W off0) true (fs, [])

/-- Body of one `_download_energy_data` loop iteration (lines 133-150): skip
unless most recent or the complete month file is absent; otherwise announce
and run the month download, logging a caught exception. -/
def process_energy_month (o : Oracle) (ren : Int → Int) (siteId : Nat)
    (st : St) (sw : Int) (pm : Bool) : St :=
  let nameC := get_energy_csv_name siteId sw false
  if pm || !(fsHas st.1 nameC) then
    let st1 : St := (st.1, st.2 ++ [.announced nameC])
    let r := download_energy_month o ren siteId sw pm st1
    match r.res with
    | .error e => (r.st.1, r.st.2 ++ [.errCaught sw e])
    | .ok _ => r.st
  else st

/-- The `_download_energy_data` while loop as a fold over its month buckets. -/
def run_energy_from (o : Oracle) (ren : Int → Int) (siteId : Nat) :
    List EBucket → Bool → St → St
  | [], _, st => st
  | b :: bs, pm, st =>
    run_energy_from o ren siteId bs false (process_energy_month o ren siteId st b.sw pm)

/-- `_download_energy_data` (lines 115-156) for one site. -/
def download_energy_data (o : Oracle) (ren : Int → Int) (siteId : Nat) (tz : TZ)
    (inst W off0 : Int) (h0 : off0.natAbs ≤ 50400) (fs : FS) : St :=
  run_energy_from o ren siteId (energyBuckets tz inst W off0 h0) true (fs, [])

/-! ### Pre-run deletion of stale partial files
(`_delete_partial_energy_files`, `_delete_partial_power_files`,
`_delete_partial_soe_files`, lines 159-165 and 305-320).  These walk the raw
directory listing and remove every name containing the string
`.partial.csv`; the survivors are untouched. -/

/-- The marker the deletion pass searches for. -/
def partMarker : List Char := ".partial.csv".data

/-- `for fname in os.listdir(dir): if '.partial.csv' in fname: os.remove(...)`
applied to one directory listing. -/
def delete_part_files (names : List String) : List String :=
  names.filter (fun n => !(strHasSub partMarker n.data))

/-! ### Timezone derivation (`_get_timezone`, lines 100-112).

`offAt z t` is `datetime.now(pytz.timezone(z)).strftime('%z')` when the
present instant is `t`; the probe compares it with the installation date's
own offset string.  The three candidate lists model
`pytz.country_timezones('us')`, `pytz.common_timezones`, `pytz.all_timezones`.
Falling off the end of the Python function returns `None`. -/

/-- `_get_timezone`. -/
def get_timezone (cfgTz : Option String) (offAt : String → Int → String)
    (now : Int) (usZ commonZ allZ : List String) (instOff : String) :
    Option String :=
  match cfgTz with
  | some t => some t
  | none =>
    match usZ.find? (fun z => offAt z now == instOff) with
    | some t => some t
    | none =>
      match commonZ.find? (fun z => offAt z now == instOff) with
      | some t => some t
      | none =>
        match allZ.find? (fun z => offAt z now == instOff) with
        | some t => some t
        | none => none

/-! ### Concrete fixtures (used by the witnesses and counterexamples). -/

/-- Identity timestamp renormalisation. -/
def ren0 : Int → Int := id

/-- A well-formed power record with summands 1, 2, 3, 4. -/
def stdRec : Rec :=
  [("timestamp", 5), ("solar_power", 1), ("battery_power", 2),
   ("grid_power", 3), ("generator_power", 4)]

/-- A power record missing the `solar_power` summand. -/
def badRec : Rec :=
  [("timestamp", 6), ("battery_power", 2), ("grid_power", 3),
   ("generator_power", 4)]

/-- An API that always answers with one well-formed record. -/
def oGood : Oracle :=
  ⟨fun _ _ => .ok (some [stdRec]), fun _ _ => .ok (some [stdRec]),
   fun _ _ => .ok (some [stdRec])⟩

/-- An API whose power endpoint permanently fails for the day bucket at wall
clock 951955200 (2000-03-02) and succeeds everywhere else. -/
def oFail : Oracle :=
  ⟨fun w _ => if w = 951955200 then .error (.apiError 1)
    else .ok (some [stdRec]),
   fun _ _ => .ok (some [stdRec]), fun _ _ => .ok (some [stdRec])⟩

/-- An API whose soe endpoint answers with an empty time series. -/
def oSoeEmpty : Oracle :=
  ⟨fun _ _ => .ok (some [stdRec]), fun _ _ => .ok (some []),
   fun _ _ => .ok (some [stdRec])⟩

/-- An API whose responses carry no `time_series` field. -/
def oNone : Oracle :=
  ⟨fun _ _ => .ok none, fun _ _ => .ok none, fun _ _ => .ok none⟩

/-- An API whose power endpoint returns a record with a missing summand
after a good record. -/
def oBad : Oracle :=
  ⟨fun _ _ => .ok (some [stdRec, badRec]), fun _ _ => .ok (some [stdRec]),
   fun _ _ => .ok (some [stdRec])⟩

/-! ### Helper lemmas about the bucket sequencers. -/

theorem powerDatesFrom_utc_step (inst w : Int) (h : w > inst) :
    powerDatesFrom utcTZ inst w = w :: powerDatesFrom utcTZ inst (w - 86400) := by
  rw [powerDatesFrom]
  rw [if_pos]
  show w - 0 > inst
  omega

theorem powerDatesFrom_utc_stop (inst w : Int) (h : ¬(w > inst)) :
    powerDatesFrom utcTZ inst w = [] := by
  rw [powerDatesFrom]
  rw [if_neg]
  show ¬(w - 0 > inst)
  omega

theorem powerDates_cex1 : powerDates utcTZ 43200 172805 0 = [172800, 86400] := by
  have hd : dayStart 172805 = 172800 := by decide
  rw [powerDates, hd, if_pos (by norm_num)]
  rw [show (172800 : Int) - 86400 = 86400 by norm_num]
  rw [powerDatesFrom_utc_step 43200 86400 (by norm_num)]
  rw [show (86400 : Int) - 86400 = 0 by norm_num]
  rw [powerDatesFrom_utc_stop 43200 0 (by norm_num)]

theorem powerDates_cex2 :
    powerDates utcTZ 951868790 951955205 0 = [951955200, 951868800] := by
  have hd : dayStart 951955205 = 951955200 := by decide
  rw [powerDates, hd, if_pos (by norm_num)]
  rw [show (951955200 : Int) - 86400 = 951868800 by norm_num]
  rw [powerDatesFrom_utc_step 951868790 951868800 (by norm_num)]
  rw [show (951868800 : Int) - 86400 = 951782400 by norm_num]
  rw [powerDatesFrom_utc_stop 951868790 951782400 (by norm_num)]

theorem powerDatesFrom_nil_iff (tz : TZ) (inst w : Int) :
    powerDatesFrom tz inst w = [] ↔ ¬(w - tz.off w > inst) := by
  rw [powerDatesFrom]
  split <;> simp_all

theorem powerDatesFrom_head (tz : TZ) (inst w : Int) :
    powerDatesFrom tz inst w = [] ∨ (powerDatesFrom tz inst w).head? = some w := by
  rw [powerDatesFrom]
  split
  · right
    rfl
  · left
    rfl

theorem powerDatesFrom_guard (tz : TZ) (inst : Int) :
    ∀ w, ∀ x ∈ powerDatesFrom tz inst w, x - tz.off x > inst := by
  intro w
  induction w using powerDatesFrom.induct tz inst with
  | case1 w h ih =>
    intro x hx
    rw [powerDatesFrom, if_pos h] at hx
    rcases List.mem_cons.mp hx with rfl | hx
    · exact h
    · exact ih x hx
  | case2 w h =>
    intro x hx
    rw [powerDatesFrom, if_neg h] at hx
    simp at hx

theorem powerDatesFrom_chain (tz : TZ) (inst : Int) :
    ∀ w, List.Chain' (fun a b => b = a - 86400) (powerDatesFrom tz inst w) := by
  intro w
  induction w using powerDatesFrom.induct tz inst with
  | case1 w h ih =>
    rw [powerDatesFrom, if_pos h]
    refine List.chain'_cons'.mpr ⟨?_, ih⟩
    intro b hb
    rcases powerDatesFrom_head tz inst (w - 86400) with hnil | hhd
    · rw [hnil] at hb
      simp at hb
    · rw [hhd] at hb
      simp_all
  | case2 w h =>
    rw [powerDatesFrom, if_neg h]
    simp

theorem powerDatesFrom_getLast (tz : TZ) (inst : Int) :
    ∀ w wl, (powerDatesFrom tz inst w).getLast? = some wl →
      (wl - 86400) - tz.off (wl - 86400) ≤ inst := by
  intro w
  induction w using powerDatesFrom.induct tz inst with
  | case1 w h ih =>
    intro wl hl
    rw [powerDatesFrom, if_pos h] at hl
    cases h2 : powerDatesFrom tz inst (w - 86400) with
    | nil =>
      rw [h2] at hl
      simp at hl
      subst hl
      exact not_lt.mp ((powerDatesFrom_nil_iff tz inst (w - 86400)).mp h2)
    | cons a l =>
      rw [h2, List.getLast?_cons_cons] at hl
      exact ih wl (h2 ▸ hl)
  | case2 w h =>
    intro wl hl
    rw [powerDatesFrom, if_neg h] at hl
    simp at hl

theorem energyFrom_nil_iff (tz : TZ) (inst : Int) (sw soff ew eoff : Int)
    (hse : sw ≤ ew) (hs : soff.natAbs ≤ 50400) (he : eoff.natAbs ≤ 50400) :
    energyFrom tz inst sw soff ew eoff hse hs he = [] ↔ ¬(ew - eoff > inst) := by
  rw [energyFrom]
  split <;> simp_all

theorem energyFrom_head (tz : TZ) (inst : Int) (sw soff ew eoff : Int)
    (hse : sw ≤ ew) (hs : soff.natAbs ≤ 50400) (he : eoff.natAbs ≤ 50400) :
    energyFrom tz inst sw soff ew eoff hse hs he = [] ∨
      (energyFrom tz inst sw soff ew eoff hse hs he).head? =
        some ⟨sw, soff, ew, eoff⟩ := by
  rw [energyFrom]
  split
  · right
    rfl
  · left
    rfl

theorem energyFrom_guard (tz : TZ) (inst : Int) (sw soff ew eoff : Int)
    (hse : sw ≤ ew) (hs : soff.natAbs ≤ 50400) (he : eoff.natAbs ≤ 50400) :
    ∀ b ∈ energyFrom tz inst sw soff ew eoff hse hs he, b.ew - b.eoff > inst := by
  induction sw, soff, ew, eoff, hse, hs, he using energyFrom.induct tz inst with
  | case1 sw soff ew eoff hse hs he h ih =>
    intro b hb
    rw [energyFrom, if_pos h] at hb
    rcases List.mem_cons.mp hb with rfl | hb
    · exact h
    · exact ih b hb
  | case2 sw soff ew eoff hse hs he h =>
    intro b hb
    rw [energyFrom, if_neg h] at hb
    simp at hb

theorem energyFrom_chain (tz : TZ) (inst : Int) (sw soff ew eoff : Int)
    (hse : sw ≤ ew) (hs : soff.natAbs ≤ 50400) (he : eoff.natAbs ≤ 50400) :
    List.Chain'
      (fun b b' => b'.ew = b.sw - 1 ∧ b'.eoff = b.soff ∧
        b'.sw = monthStartWall (b.sw - 1) ∧ b'.soff = tz.off (monthStartWall (b.sw - 1)))
      (energyFrom tz inst sw soff ew eoff hse hs he) := by
  induction sw, soff, ew, eoff, hse, hs, he using energyFrom.induct tz inst with
  | case1 sw soff ew eoff hse hs he h ih =>
    rw [energyFrom, if_pos h]
    refine List.chain'_cons'.mpr ⟨?_, ih⟩
    intro b hb
    rcases energyFrom_head tz inst (monthStartWall (sw - 1))
        (tz.off (monthStartWall (sw - 1))) (sw - 1) soff
        (monthStartWall_le (sw - 1)) (tz.bounded _) hs with hnil | hhd
    · rw [hnil] at hb
      simp at hb
    · rw [hhd] at hb
      simp only [Option.mem_some_iff] at hb
      subst hb
      exact ⟨rfl, rfl, rfl, rfl⟩
  | case2 sw soff ew eoff hse hs he h =>
    rw [energyFrom, if_neg h]
    simp

theorem energyFrom_desc (tz : TZ) (inst : Int) (sw soff ew eoff : Int)
    (hse : sw ≤ ew) (hs : soff.natAbs ≤ 50400) (he : eoff.natAbs ≤ 50400) :
    List.Chain' (fun b b' => b'.ew < b.ew ∧ b'.sw < b.sw)
      (energyFrom tz inst sw soff ew eoff hse hs he) := by
  induction sw, soff, ew, eoff, hse, hs, he using energyFrom.induct tz inst with
  | case1 sw soff ew eoff hse hs he h ih =>
    rw [energyFrom, if_pos h]
    refine List.chain'_cons'.mpr ⟨?_, ih⟩
    intro b hb
    rcases energyFrom_head tz inst (monthStartWall (sw - 1))
        (tz.off (monthStartWall (sw - 1))) (sw - 1) soff
        (monthStartWall_le (sw - 1)) (tz.bounded _) hs with hnil | hhd
    · rw [hnil] at hb
      simp at hb
    · rw [hhd] at hb
      simp only [Option.mem_some_iff] at hb
      subst hb
      have hm := monthStartWall_le (sw - 1)
      refine ⟨?_, ?_⟩ <;> (dsimp only; omega)
  | case2 sw soff ew eoff hse hs he h =>
    rw [energyFrom, if_neg h]
    simp

theorem energyFrom_getLast (tz : TZ) (inst : Int) (sw soff ew eoff : Int)
    (hse : sw ≤ ew) (hs : soff.natAbs ≤ 50400) (he : eoff.natAbs ≤ 50400) :
    ∀ b, (energyFrom tz inst sw soff ew eoff hse hs he).getLast? = some b →
      (b.sw - 1) - b.soff ≤ inst := by
  induction sw, soff, ew, eoff, hse, hs, he using energyFrom.induct tz inst with
  | case1 sw soff ew eoff hse hs he h ih =>
    intro b hl
    rw [energyFrom, if_pos h] at hl
    cases h2 : energyFrom tz inst (monthStartWall (sw - 1))
        (tz.off (monthStartWall (sw - 1))) (sw - 1) soff
        (monthStartWall_le (sw - 1)) (tz.bounded _) hs with
    | nil =>
      rw [h2] at hl
      simp at hl
      subst hl
      have := (energyFrom_nil_iff tz inst (monthStartWall (sw - 1))
        (tz.off (monthStartWall (sw - 1))) (sw - 1) soff
        (monthStartWall_le (sw - 1)) (tz.bounded _) hs).mp h2
      dsimp only
      omega
    | cons a l =>
      rw [h2, List.getLast?_cons_cons] at hl
      exact ih b (h2 ▸ hl)
  | case2 sw soff ew eoff hse hs he h =>
    intro b hl
    rw [energyFrom, if_neg h] at hl
    simp at hl

/-! ### Helper lemmas about records, rows and the writers. -/

theorem recFind_recSet_self : ∀ (r : Rec) (k : String) (v : Int),
    recFind (recSet r k v) k = some v
  | [], k, v => by simp [recSet, recFind]
  | (k0, w) :: r, k, v => by
    by_cases h : k0 = k
    · simp [recSet, recFind, h]
    · simp [recSet, recFind, h, recFind_recSet_self r k v]

theorem recFind_recSet_ne : ∀ (r : Rec) (k k' : String) (v : Int), k' ≠ k →
    recFind (recSet r k v) k' = recFind r k'
  | [], k, k', v, h => by
    have h2 : ¬(k = k') := fun hh => h hh.symm
    simp [recSet, recFind, h2]
  | (k0, w) :: r, k, k', v, h => by
    have h2 : ¬(k = k') := fun hh => h hh.symm
    by_cases h0 : k0 = k
    · subst h0
      simp [recSet, recFind, h2]
    · by_cases h1 : k0 = k'
      · subst h1
        simp [recSet, recFind, h0]
      · simp [recSet, recFind, h0, h1, recFind_recSet_ne r k k' v h]

theorem recFind_recDel_ne : ∀ (r : Rec) (k k' : String), k' ≠ k →
    recFind (recDel r k) k' = recFind r k'
  | [], k, k', h => rfl
  | (k0, w) :: r, k, k', h => by
    have h2 : ¬(k = k') := fun hh => h hh.symm
    by_cases h0 : k0 = k
    · subst h0
      simp [recDel, recFind, h2]
    · by_cases h1 : k0 = k'
      · subst h1
        simp [recDel, recFind, h0]
      · simp [recDel, recFind, h0, h1, recFind_recDel_ne r k k' h]

theorem recFind_foldl_recDel : ∀ (cols : List String) (r : Rec) (k : String),
    k ∉ cols → recFind (cols.foldl recDel r) k = recFind r k
  | [], r, k, _ => rfl
  | c :: cols, r, k, h => by
    have hk : k ≠ c := fun hh => h (hh ▸ List.mem_cons_self c cols)
    have hcols : k ∉ cols := fun hh => h (List.mem_cons_of_mem c hh)
    calc recFind ((c :: cols).foldl recDel r) k
        = recFind (cols.foldl recDel (recDel r c)) k := rfl
      _ = recFind (recDel r c) k := recFind_foldl_recDel cols (recDel r c) k hcols
      _ = recFind r k := recFind_recDel_ne r c k hk

theorem recFind_remove_excluded (r : Rec) (k : String)
    (h : k ∉ EXCLUDED_COLUMNS) :
    recFind (remove_excluded_columns r) k = recFind r k :=
  recFind_foldl_recDel EXCLUDED_COLUMNS r k h

theorem rowVal_rowOf_mem : ∀ (flds : List String) (r : Rec) (k : String),
    k ∈ flds → rowVal (rowOf flds r) k = recFind r k
  | [], r, k, h => by simp at h
  | f :: flds, r, k, h => by
    by_cases hf : f = k
    · subst hf
      simp [rowOf, rowVal]
    · have : k ∈ flds := by
        rcases List.mem_cons.mp h with h1 | h1
        · exact absurd h1.symm hf
        · exact h1
      simp [rowOf, rowVal, hf]
      exact rowVal_rowOf_mem flds r k this

theorem writeRows_ok_length (flds : List String) (proc : Rec → Except PyErr Rec) :
    ∀ (ts : List Rec) (rows : List Row),
      writeRows flds proc ts = .ok rows → rows.length = ts.length
  | [], rows, h => by
    simp [writeRows] at h
    simp [← h]
  | r :: rest, rows, h => by
    simp only [writeRows] at h
    cases hp : proc r with
    | error e => rw [hp] at h; exact absurd h (by simp)
    | ok r2 =>
      rw [hp] at h
      cases hw : writeRows flds proc rest with
      | error p => rw [hw] at h; exact absurd h (by simp)
      | ok rows' =>
        rw [hw] at h
        simp only [Except.ok.injEq] at h
        subst h
        simp [writeRows_ok_length flds proc rest rows' hw]

theorem writeRows_ok_get (flds : List String) (proc : Rec → Except PyErr Rec) :
    ∀ (ts : List Rec) (rows : List Row), writeRows flds proc ts = .ok rows →
      ∀ (i : Nat) (hi : i < ts.length) (hr : i < rows.length),
        ∃ r2, proc (ts.get ⟨i, hi⟩) = .ok r2 ∧ rows.get ⟨i, hr⟩ = rowOf flds r2
  | [], rows, h, i, hi, hr => by simp at hi
  | r :: rest, rows, h, i, hi, hr => by
    simp only [writeRows] at h
    cases hp : proc r with
    | error e => rw [hp] at h; exact absurd h (by simp)
    | ok r2 =>
      rw [hp] at h
      cases hw : writeRows flds proc rest with
      | error p => rw [hw] at h; exact absurd h (by simp)
      | ok rows' =>
        rw [hw] at h
        simp only [Except.ok.injEq] at h
        subst h
        cases i with
        | zero => exact ⟨r2, hp, rfl⟩
        | succ j =>
          exact writeRows_ok_get flds proc rest rows' hw j
            (Nat.lt_of_succ_lt_succ hi) (Nat.lt_of_succ_lt_succ hr)

theorem writeRows_error_of_mem (flds : List String)
    (proc : Rec → Except PyErr Rec) :
    ∀ (ts : List Rec), (∃ r ∈ ts, ∃ e, proc r = .error e) →
      ∃ rows eo, writeRows flds proc ts = .error (rows, eo) ∧
        rows.length < ts.length
  | [], h => by simp at h
  | r :: rest, h => by
    simp only [writeRows]
    cases hp : proc r with
    | error e => exact ⟨[], e, rfl, by simp⟩
    | ok r2 =>
      have hrest : ∃ r' ∈ rest, ∃ e, proc r' = .error e := by
        rcases h with ⟨r', hr', e, he⟩
        rcases List.mem_cons.mp hr' with rfl | hmem
        · rw [hp] at he; exact absurd he (by simp)
        · exact ⟨r', hmem, e, he⟩
      rcases writeRows_error_of_mem flds proc rest hrest with ⟨rows, eo, hw, hlen⟩
      rw [hw]
      exact ⟨rowOf flds r2 :: rows, eo, rfl, by simpa using Nat.succ_lt_succ hlen⟩

theorem procPowerRec_ok (ren : Int → Int) (r r2 : Rec) :
    procPowerRec ren r = .ok r2 ↔
      ∃ tv s b g gn, recFind r "timestamp" = some tv ∧
        recFind r "solar_power" = some s ∧
        recFind r "battery_power" = some b ∧
        recFind r "grid_power" = some g ∧
        recFind r "generator_power" = some gn ∧
        r2 = remove_excluded_columns
          (recSet (recSet r "timestamp" (ren tv)) "load_power" (s + b + g + gn)) := by
  have e1 : ∀ tv, recFind (recSet r "timestamp" (ren tv)) "solar_power" =
      recFind r "solar_power" := fun tv => recFind_recSet_ne r _ _ _ (by decide)
  have e2 : ∀ tv, recFind (recSet r "timestamp" (ren tv)) "battery_power" =
      recFind r "battery_power" := fun tv => recFind_recSet_ne r _ _ _ (by decide)
  have e3 : ∀ tv, recFind (recSet r "timestamp" (ren tv)) "grid_power" =
      recFind r "grid_power" := fun tv => recFind_recSet_ne r _ _ _ (by decide)
  have e4 : ∀ tv, recFind (recSet r "timestamp" (ren tv)) "generator_power" =
      recFind r "generator_power" := fun tv => recFind_recSet_ne r _ _ _ (by decide)
  unfold procPowerRec
  cases ht : recFind r "timestamp" with
  | none => simp [ht]
  | some tv =>
    dsimp only
    rw [e1 tv, e2 tv, e3 tv, e4 tv]
    cases recFind r "solar_power" <;>
      cases recFind r "battery_power" <;>
        cases recFind r "grid_power" <;>
          cases recFind r "generator_power" <;>
            simp [ht, eq_comm]

theorem procPowerRec_missing (ren : Int → Int) (r : Rec)
    (h : recFind r "solar_power" = none ∨ recFind r "battery_power" = none ∨
      recFind r "grid_power" = none ∨ recFind r "generator_power" = none) :
    ∃ e, procPowerRec ren r = .error e := by
  cases hp : procPowerRec ren r with
  | error e => exact ⟨e, rfl⟩
  | ok r2 =>
    rcases (procPowerRec_ok ren r r2).mp hp with ⟨tv, s, b, g, gn, _, h2, h3, h4, h5, _⟩
    rcases h with h | h | h | h <;> simp_all

theorem rowVal_rowOf_not_mem : ∀ (flds : List String) (r : Rec) (k : String),
    k ∉ flds → rowVal (rowOf flds r) k = none
  | [], r, k, _ => rfl
  | f :: flds, r, k, h => by
    have hf : ¬(f = k) := fun hh => h (hh ▸ List.mem_cons_self f flds)
    have h2 : k ∉ flds := fun hh => h (List.mem_cons_of_mem f hh)
    simp [rowOf, rowVal, hf]
    exact rowVal_rowOf_not_mem flds r k h2

theorem recFind_recDel_none : ∀ (r : Rec) (k k' : String),
    recFind r k = none → recFind (recDel r k') k = none
  | [], k, k', h => rfl
  | (k0, w) :: r, k, k', h => by
    have hk0 : ¬(k0 = k) := by
      intro hh
      rw [recFind, if_pos hh] at h
      exact absurd h (by simp)
    rw [recFind, if_neg hk0] at h
    by_cases h0 : k0 = k'
    · rw [recDel, if_pos h0]
      exact h
    · rw [recDel, if_neg h0, recFind, if_neg hk0]
      exact recFind_recDel_none r k k' h

theorem recFind_foldl_recDel_none : ∀ (cols : List String) (r : Rec) (k : String),
    recFind r k = none → recFind (cols.foldl recDel r) k = none
  | [], r, k, h => h
  | c :: cols, r, k, h =>
    recFind_foldl_recDel_none cols (recDel r c) k (recFind_recDel_none r k c h)

theorem recFind_remove_excluded_none (r : Rec) (k : String)
    (h : recFind r k = none) :
    recFind (remove_excluded_columns r) k = none :=
  recFind_foldl_recDel_none EXCLUDED_COLUMNS r k h

theorem procPlainRec_ok (ren : Int → Int) (r r2 : Rec) :
    procPlainRec ren r = .ok r2 ↔
      ∃ tv, recFind r "timestamp" = some tv ∧
        r2 = remove_excluded_columns (recSet r "timestamp" (ren tv)) := by
  unfold procPlainRec
  cases ht : recFind r "timestamp" with
  | none => simp [ht]
  | some tv => simp [ht, eq_comm]

theorem procPlainRec_missing (ren : Int → Int) (r : Rec)
    (h : recFind r "timestamp" = none) :
    procPlainRec ren r = .error (.keyError "timestamp") := by
  unfold procPlainRec
  rw [h]

theorem write_power_csv_complete_inv (ren : Int → Int) (ts : List Rec)
    (flds : List String) (rows : List Row)
    (hw : write_power_csv ren ts = .complete flds rows) :
    flds = (get_fieldnames_from_series ts ++ ["load_power"]).filter
        (fun n => !(EXCLUDED_COLUMNS.contains n)) ∧
      writeRows flds (procPowerRec ren) ts = .ok rows := by
  unfold write_power_csv at hw
  by_cases hE : ts.isEmpty
  · rw [if_pos hE] at hw
    exact absurd hw (by simp)
  · rw [if_neg hE] at hw
    dsimp only at hw
    cases hwr : writeRows ((get_fieldnames_from_series ts ++ ["load_power"]).filter
        (fun n => !(EXCLUDED_COLUMNS.contains n))) (procPowerRec ren) ts with
    | ok rows' =>
      rw [hwr] at hw
      simp only [WResult.complete.injEq] at hw
      rw [← hw.1, ← hw.2]
      exact ⟨rfl, hwr⟩
    | error p =>
      rw [hwr] at hw
      exact absurd hw (by simp)

theorem write_energy_csv_complete_inv (ren : Int → Int) (ts : List Rec)
    (flds : List String) (rows : List Row)
    (hw : write_energy_csv ren ts = .complete flds rows) :
    flds = (get_fieldnames_from_series ts).filter
        (fun n => !(EXCLUDED_COLUMNS.contains n)) ∧
      writeRows flds (procPlainRec ren) ts = .ok rows := by
  unfold write_energy_csv at hw
  by_cases hE : ts.isEmpty
  · rw [if_pos hE] at hw
    exact absurd hw (by simp)
  · rw [if_neg hE] at hw
    dsimp only at hw
    cases hwr : writeRows ((get_fieldnames_from_series ts).filter
        (fun n => !(EXCLUDED_COLUMNS.contains n))) (procPlainRec ren) ts with
    | ok rows' =>
      rw [hwr] at hw
      simp only [WResult.complete.injEq] at hw
      rw [← hw.1, ← hw.2]
      exact ⟨rfl, hwr⟩
    | error p =>
      rw [hwr] at hw
      exact absurd hw (by simp)

/-! ### Helper lemmas about the filesystem and the run logs. -/

theorem fsHas_filter_ne : ∀ (fs : FS) (p q : FPath), q ≠ p →
    (fs.filter (fun e => !(e.1 == p))).any (fun e => e.1 == q) =
      fs.any (fun e => e.1 == q)
  | [], p, q, h => rfl
  | e :: fs, p, q, h => by
    by_cases he : e.1 = p
    · have h1 : (e.1 == p) = true := beq_iff_eq.mpr he
      have h2 : (e.1 == q) = false := by
        rw [beq_eq_false_iff_ne]
        intro hh
        exact h (hh ▸ he ▸ rfl)
      rw [List.filter_cons_of_neg]
      · rw [fsHas_filter_ne fs p q h, List.any_cons, h2, Bool.false_or]
      · simp [h1]
    · have h1 : (e.1 == p) = false := beq_eq_false_iff_ne.mpr he
      rw [List.filter_cons_of_pos]
      · rw [List.any_cons, List.any_cons, fsHas_filter_ne fs p q h]
      · simp [h1]

theorem fsHas_fsWrite_self (fs : FS) (p : FPath) (flds : List String)
    (rows : List Row) : fsHas (fsWrite fs p flds rows) p = true := by
  simp [fsHas, fsWrite]

theorem fsHas_fsWrite_ne (fs : FS) (p q : FPath) (flds : List String)
    (rows : List Row) (h : q ≠ p) :
    fsHas (fsWrite fs p flds rows) q = fsHas fs q := by
  have h2 : (p == q) = false := by
    rw [beq_eq_false_iff_ne]
    exact fun hh => h hh.symm
  simp only [fsHas, fsWrite, List.any_append, List.any_cons, List.any_nil, h2,
    Bool.or_false, fsHas_filter_ne fs p q h]

theorem attempt_power_snd (o : Oracle) (ren : Int → Int) (siteId : Nat)
    (w : Int) (pd : Bool) (att : Nat) (st : St) :
    (attempt_power o ren siteId w pd att st).1.2 =
      st.2 ++ [Ev.apiCall .power w att] := by
  unfold attempt_power
  cases o.power w att with
  | error e => rfl
  | ok ts =>
    cases ts with
    | none => rfl
    | some ts =>
      dsimp only
      cases write_power_csv ren ts <;> rfl

theorem attempt_soe_snd (o : Oracle) (ren : Int → Int) (siteId : Nat)
    (w : Int) (pd : Bool) (att : Nat) (st : St) :
    (attempt_soe o ren siteId w pd att st).1.2 =
      st.2 ++ [Ev.apiCall .soe w att] := by
  unfold attempt_soe
  cases o.soe w att with
  | error e => rfl
  | ok ts =>
    cases ts with
    | none => rfl
    | some ts =>
      dsimp only
      cases write_soe_csv ren ts <;> rfl

theorem attempt_energy_snd (o : Oracle) (ren : Int → Int) (siteId : Nat)
    (sw : Int) (pm : Bool) (att : Nat) (st : St) :
    (attempt_energy o ren siteId sw pm att st).1.2 =
      st.2 ++ [Ev.apiCall .energy sw att] := by
  unfold attempt_energy
  cases o.energy sw att with
  | error e => rfl
  | ok ts =>
    cases ts with
    | none => rfl
    | some ts =>
      dsimp only
      cases write_energy_csv ren ts <;> rfl

theorem download_power_day_snd (o : Oracle) (ren : Int → Int) (siteId : Nat)
    (w : Int) (pd : Bool) (st : St) :
    (download_power_day o ren siteId w pd st).st.2 =
        st.2 ++ [Ev.apiCall .power w 0] ∨
      (download_power_day o ren siteId w pd st).st.2 =
        st.2 ++ [Ev.apiCall .power w 0, Ev.apiCall .power w 1] := by
  unfold download_power_day retry2
  cases hf : attempt_power o ren siteId w pd 0 st with
  | mk s1 r =>
    have h1 : s1.2 = st.2 ++ [Ev.apiCall .power w 0] := by
      have := attempt_power_snd o ren siteId w pd 0 st
      rw [hf] at this
      exact this
    cases r with
    | ok a => left; exact h1
    | error e =>
      right
      have h2 := attempt_power_snd o ren siteId w pd 1 s1
      dsimp only
      rw [h2, h1, List.append_assoc]
      rfl

theorem download_soe_day_snd (o : Oracle) (ren : Int → Int) (siteId : Nat)
    (w : Int) (pd : Bool) (st : St) :
    (download_soe_day o ren siteId w pd st).st.2 =
        st.2 ++ [Ev.apiCall .soe w 0] ∨
      (download_soe_day o ren siteId w pd st).st.2 =
        st.2 ++ [Ev.apiCall .soe w 0, Ev.apiCall .soe w 1] := by
  unfold download_soe_day retry2
  cases hf : attempt_soe o ren siteId w pd 0 st with
  | mk s1 r =>
    have h1 : s1.2 = st.2 ++ [Ev.apiCall .soe w 0] := by
      have := attempt_soe_snd o ren siteId w pd 0 st
      rw [hf] at this
      exact this
    cases r with
    | ok a => left; exact h1
    | error e =>
      right
      have h2 := attempt_soe_snd o ren siteId w pd 1 s1
      dsimp only
      rw [h2, h1, List.append_assoc]
      rfl

theorem download_energy_month_snd (o : Oracle) (ren : Int → Int) (siteId : Nat)
    (sw : Int) (pm : Bool) (st : St) :
    (download_energy_month o ren siteId sw pm st).st.2 =
        st.2 ++ [Ev.apiCall .energy sw 0] ∨
      (download_energy_month o ren siteId sw pm st).st.2 =
        st.2 ++ [Ev.apiCall .energy sw 0, Ev.apiCall .energy sw 1] := by
  unfold download_energy_month retry2
  cases hf : attempt_energy o ren siteId sw pm 0 st with
  | mk s1 r =>
    have h1 : s1.2 = st.2 ++ [Ev.apiCall .energy sw 0] := by
      have := attempt_energy_snd o ren siteId sw pm 0 st
      rw [hf] at this
      exact this
    cases r with
    | ok a => left; exact h1
    | error e =>
      right
      have h2 := attempt_energy_snd o ren siteId sw pm 1 s1
      dsimp only
      rw [h2, h1, List.append_assoc]
      rfl

theorem attempt_soe_fs_other (o : Oracle) (ren : Int → Int) (siteId : Nat)
    (w : Int) (pd : Bool) (att : Nat) (st : St) (p : FPath)
    (hk : p.kind ≠ Kind.soe) :
    fsHas (attempt_soe o ren siteId w pd att st).1.1 p = fsHas st.1 p := by
  have hne : ∀ b : Bool, p ≠ get_soe_csv_name siteId w b := by
    intro b hp
    exact hk (by rw [hp]; rfl)
  unfold attempt_soe
  cases o.soe w att with
  | error e => rfl
  | ok ts =>
    cases ts with
    | none => rfl
    | some ts =>
      dsimp only
      cases write_soe_csv ren ts with
      | noFile e => rfl
      | partFile flds rows e =>
        exact fsHas_fsWrite_ne st.1 _ p flds rows (hne pd)
      | complete flds rows =>
        exact fsHas_fsWrite_ne st.1 _ p flds rows (hne pd)

theorem download_soe_day_fs_other (o : Oracle) (ren : Int → Int) (siteId : Nat)
    (w : Int) (pd : Bool) (st : St) (p : FPath) (hk : p.kind ≠ Kind.soe) :
    fsHas (download_soe_day o ren siteId w pd st).st.1 p = fsHas st.1 p := by
  unfold download_soe_day retry2
  cases hf : attempt_soe o ren siteId w pd 0 st with
  | mk s1 r =>
    have h1 : fsHas s1.1 p = fsHas st.1 p := by
      have := attempt_soe_fs_other o ren siteId w pd 0 st p hk
      rw [hf] at this
      exact this
    cases r with
    | ok a => exact h1
    | error e =>
      dsimp only
      rw [attempt_soe_fs_other o ren siteId w pd 1 s1 p hk, h1]

/-! ### Helper lemmas about the string predicates. -/

theorem strStartsWith_append : ∀ (p t : List Char),
    strStartsWith p (p ++ t) = true
  | [], t => rfl
  | c :: p, t => by simp [strStartsWith, strStartsWith_append p t]

theorem strStartsWith_exists : ∀ (p s : List Char),
    strStartsWith p s = true → ∃ t, s = p ++ t
  | [], s, _ => ⟨s, rfl⟩
  | c :: p, [], h => by simp [strStartsWith] at h
  | c :: p, d :: s, h => by
    simp only [strStartsWith, Bool.and_eq_true, decide_eq_true_eq] at h
    rcases strStartsWith_exists p s h.2 with ⟨t, rfl⟩
    exact ⟨t, by rw [h.1]; rfl⟩

theorem strHasSub_nil : ∀ s : List Char, strHasSub [] s = true
  | [] => rfl
  | c :: cs => by simp [strHasSub, strStartsWith]

theorem strHasSub_of_append : ∀ (t p r : List Char),
    strHasSub p (t ++ p ++ r) = true
  | [], p, r => by
    cases p with
    | nil => simpa using strHasSub_nil r
    | cons c p =>
      simp only [List.nil_append, List.cons_append, strHasSub, Bool.or_eq_true]
      left
      exact strStartsWith_append (c :: p) r
  | c :: t, p, r => by
    simp only [List.cons_append, strHasSub, Bool.or_eq_true]
    right
    exact strHasSub_of_append t p r

theorem strEndsWith_hasSub (p s : List Char) (h : strEndsWith p s = true) :
    strHasSub p s = true := by
  unfold strEndsWith at h
  rcases strStartsWith_exists p.reverse s.reverse h with ⟨t, ht⟩
  have hs : s = t.reverse ++ p := by
    have := congrArg List.reverse ht
    simpa [List.reverse_append] using this
  rw [hs]
  have := strHasSub_of_append t.reverse p []
  simpa using this

/-! ### Helper lemmas about the per-bucket loop bodies. -/

theorem download_power_day_snd_len (o : Oracle) (ren : Int → Int)
    (siteId : Nat) (w : Int) (pd : Bool) (st : St) :
    st.2.length < (download_power_day o ren siteId w pd st).st.2.length := by
  rcases download_power_day_snd o ren siteId w pd st with h | h <;> simp [h]

theorem download_soe_day_snd_len (o : Oracle) (ren : Int → Int)
    (siteId : Nat) (w : Int) (pd : Bool) (st : St) :
    st.2.length < (download_soe_day o ren siteId w pd st).st.2.length := by
  rcases download_soe_day_snd o ren siteId w pd st with h | h <;> simp [h]

theorem download_energy_month_snd_len (o : Oracle) (ren : Int → Int)
    (siteId : Nat) (sw : Int) (pm : Bool) (st : St) :
    st.2.length < (download_energy_month o ren siteId sw pm st).st.2.length := by
  rcases download_energy_month_snd o ren siteId sw pm st with h | h <;> simp [h]

theorem download_soe_day_mem (o : Oracle) (ren : Int → Int) (siteId : Nat)
    (w : Int) (pd : Bool) (st : St) :
    Ev.apiCall .soe w 0 ∈ (download_soe_day o ren siteId w pd st).st.2 := by
  rcases download_soe_day_snd o ren siteId w pd st with h | h <;> simp [h]

theorem process_power_day_skip (o : Oracle) (ren : Int → Int) (siteId : Nat)
    (st : St) (w : Int)
    (h : fsHas st.1 (get_power_csv_name siteId w false) = true) :
    process_power_day o ren siteId st w false = st := by
  unfold process_power_day
  simp [h]

theorem process_power_day_snd_len (o : Oracle) (ren : Int → Int) (siteId : Nat)
    (st : St) (w : Int) (pd : Bool)
    (hc : (pd || !(fsHas st.1 (get_power_csv_name siteId w false))) = true) :
    st.2.length < (process_power_day o ren siteId st w pd).2.length := by
  unfold process_power_day
  dsimp only
  rw [if_pos hc]
  have hl1 := download_power_day_snd_len o ren siteId w pd
    (st.1, st.2 ++ [Ev.announced (get_power_csv_name siteId w false)])
  simp only [List.length_append, List.length_cons, List.length_nil] at hl1
  cases hres : (download_power_day o ren siteId w pd
      (st.1, st.2 ++ [Ev.announced (get_power_csv_name siteId w false)])).res with
  | error e =>
    simp only [List.length_append, List.length_cons, List.length_nil]
    omega
  | ok a =>
    dsimp only
    have hl2 := download_soe_day_snd_len o ren siteId w pd
      (download_power_day o ren siteId w pd
        (st.1, st.2 ++ [Ev.announced (get_power_csv_name siteId w false)])).st
    cases hres2 : (download_soe_day o ren siteId w pd
        (download_power_day o ren siteId w pd
          (st.1, st.2 ++ [Ev.announced (get_power_csv_name siteId w false)])).st).res with
    | error e =>
      simp only [List.length_append, List.length_cons, List.length_nil]
      omega
    | ok b =>
      dsimp only
      omega

theorem process_energy_month_skip (o : Oracle) (ren : Int → Int) (siteId : Nat)
    (st : St) (sw : Int)
    (h : fsHas st.1 (get_energy_csv_name siteId sw false) = true) :
    process_energy_month o ren siteId st sw false = st := by
  unfold process_energy_month
  simp [h]

theorem process_energy_month_snd_len (o : Oracle) (ren : Int → Int)
    (siteId : Nat) (st : St) (sw : Int) (pm : Bool)
    (hc : (pm || !(fsHas st.1 (get_energy_csv_name siteId sw false))) = true) :
    st.2.length < (process_energy_month o ren siteId st sw pm).2.length := by
  unfold process_energy_month
  dsimp only
  rw [if_pos hc]
  have hl1 := download_energy_month_snd_len o ren siteId sw pm
    (st.1, st.2 ++ [Ev.announced (get_energy_csv_name siteId sw false)])
  simp only [List.length_append, List.length_cons, List.length_nil] at hl1
  cases hres : (download_energy_month o ren siteId sw pm
      (st.1, st.2 ++ [Ev.announced (get_energy_csv_name siteId sw false)])).res with
  | error e =>
    simp only [List.length_append, List.length_cons, List.length_nil]
    omega
  | ok a =>
    dsimp only
    omega

theorem process_power_day_power_fail (o : Oracle) (ren : Int → Int)
    (siteId : Nat) (fs : FS) (l : List Ev) (w : Int) (e0 e1 : PyErr)
    (h0 : o.power w 0 = .error e0) (h1 : o.power w 1 = .error e1) :
    process_power_day o ren siteId (fs, l) w true =
      (fs, l ++ [Ev.announced (get_power_csv_name siteId w false),
        Ev.apiCall .power w 0, Ev.apiCall .power w 1, Ev.errCaught w e1]) := by
  unfold process_power_day download_power_day retry2 attempt_power
  simp [h0, h1]

theorem download_power_day_ok (o : Oracle) (ren : Int → Int) (siteId : Nat)
    (w : Int) (pd : Bool) (st : St) (ts : List Rec) (flds : List String)
    (rows : List Row) (hok : o.power w 0 = .ok (some ts))
    (hw : write_power_csv ren ts = .complete flds rows) :
    download_power_day o ren siteId w pd st =
      ⟨(fsWrite st.1 (get_power_csv_name siteId w pd) flds rows,
        st.2 ++ [Ev.apiCall .power w 0]), .ok (), [0], []⟩ := by
  unfold download_power_day retry2 attempt_power
  simp [hok, hw]

theorem download_energy_month_ok (o : Oracle) (ren : Int → Int) (siteId : Nat)
    (sw : Int) (pm : Bool) (st : St) (ts : List Rec) (flds : List String)
    (rows : List Row) (hok : o.energy sw 0 = .ok (some ts))
    (hw : write_energy_csv ren ts = .complete flds rows) :
    download_energy_month o ren siteId sw pm st =
      ⟨(fsWrite st.1 (get_energy_csv_name siteId sw pm) flds rows,
        st.2 ++ [Ev.apiCall .energy sw 0]), .ok (), [0], []⟩ := by
  unfold download_energy_month retry2 attempt_energy
  simp [hok, hw]

theorem find_offAt_none_iff (offAt : String → Int → String) (now : Int)
    (instOff : String) (l : List String) :
    l.find? (fun z => offAt z now == instOff) = none ↔
      ∀ z ∈ l, ¬(offAt z now = instOff) := by
  rw [List.find?_eq_none]
  constructor
  · intro hh z hz heq
    exact absurd (beq_iff_eq.mpr heq) (by simpa using hh z hz)
  · intro hh z hz
    simpa using fun heq => hh z hz (beq_iff_eq.mp heq)

/-! ### The claims. -/

/-- Claim C10 (confirmed): when the site configuration lacks
`installation_time_zone`, `_get_timezone` probes each candidate zone by
comparing that zone's UTC offset at the present moment `now` (not at the
installation instant) against the installation date's offset string, and it
returns `None` exactly when no zone in any of the three probed lists carries
the installation offset at the present moment; any zone it does return
carries that offset at the present moment, and a configured zone is returned
as is. -/
theorem c10_get_timezone (offAt : String → Int → String) (now : Int)
    (usZ commonZ allZ : List String) (instOff : String) :
    (get_timezone none offAt now usZ commonZ allZ instOff = none ↔
      ∀ z ∈ usZ ++ commonZ ++ allZ, ¬(offAt z now = instOff)) ∧
    (∀ t, get_timezone (some t) offAt now usZ commonZ allZ instOff = some t) ∧
    (∀ t, get_timezone none offAt now usZ commonZ allZ instOff = some t →
      offAt t now = instOff) := by
  refine ⟨⟨?_, ?_⟩, fun t => rfl, ?_⟩
  · intro h z hz
    unfold get_timezone at h
    cases h1 : usZ.find? (fun z => offAt z now == instOff) with
    | some t => rw [h1] at h; exact absurd h (by simp)
    | none =>
      rw [h1] at h
      cases h2 : commonZ.find? (fun z => offAt z now == instOff) with
      | some t => rw [h2] at h; exact absurd h (by simp)
      | none =>
        rw [h2] at h
        cases h3 : allZ.find? (fun z => offAt z now == instOff) with
        | some t => rw [h3] at h; exact absurd h (by simp)
        | none =>
          rcases List.mem_append.mp hz with hz1 | hz3
          · rcases List.mem_append.mp hz1 with hz1 | hz2
            · exact (find_offAt_none_iff offAt now instOff usZ).mp h1 z hz1
            · exact (find_offAt_none_iff offAt now instOff commonZ).mp h2 z hz2
          · exact (find_offAt_none_iff offAt now instOff allZ).mp h3 z hz3
  · intro h
    unfold get_timezone
    rw [(find_offAt_none_iff offAt now instOff usZ).mpr
      (fun z hz => h z (List.mem_append_left _ (List.mem_append_left _ hz)))]
    rw [(find_offAt_none_iff offAt now instOff commonZ).mpr
      (fun z hz => h z (List.mem_append_left _ (List.mem_append_right _ hz)))]
    rw [(find_offAt_none_iff offAt now instOff allZ).mpr
      (fun z hz => h z (List.mem_append_right _ hz))]
  · intro t h
    unfold get_timezone at h
    cases h1 : usZ.find? (fun z => offAt z now == instOff) with
    | some t1 =>
      rw [h1] at h
      simp only [Option.some.injEq] at h
      subst h
      have hp := List.find?_some h1
      simpa using hp
    | none =>
      rw [h1] at h
      cases h2 : commonZ.find? (fun z => offAt z now == instOff) with
      | some t2 =>
        rw [h2] at h
        simp only [Option.some.injEq] at h
        subst h
        have hp := List.find?_some h2
        simpa using hp
      | none =>
        rw [h2] at h
        cases h3 : allZ.find? (fun z => offAt z now == instOff) with
        | some t3 =>
          rw [h3] at h
          simp only [Option.some.injEq] at h
          subst h
          have hp := List.find?_some h3
          simpa using hp
        | none => rw [h3] at h; exact absurd h (by simp)

/-- Witness for C10 at a concrete zone database: no candidate matches, so the
probe returns `None`; a configured zone short-circuits. -/
theorem c10_witness :
    get_timezone none (fun z _ => z) 0 ["US/Pacific"] ["UTC"] ["Asia/Tokyo"]
        "-0800" = none ∧
      get_timezone (some "US/Alaska") (fun z _ => z) 0 ["US/Pacific"] ["UTC"]
        ["Asia/Tokyo"] "-0800" = some "US/Alaska" := by
  have h := c10_get_timezone (fun z _ => z) 0 ["US/Pacific"] ["UTC"]
    ["Asia/Tokyo"] "-0800"
  exact ⟨h.1.mpr (by decide), h.2.1 "US/Alaska"⟩

/-- Claim C9 (corrected): before a site's buckets for a kind are iterated,
the cleanup pass deletes every file whose name contains the partial marker
`.partial.csv` as a substring -- in particular every file carrying it as a
suffix -- and leaves exactly the files without that substring, unmodified.
(The code tests substring containment, not a suffix, so a file merely
containing the marker is also deleted.) -/
theorem c9_delete_part_files (names : List String) :
    (∀ n ∈ names, strEndsWith partMarker n.data = true →
      n ∉ delete_part_files names) ∧
    (∀ n, n ∈ delete_part_files names ↔
      n ∈ names ∧ strHasSub partMarker n.data = false) := by
  constructor
  · intro n _ hend hmem
    have h1 := (List.mem_filter.mp hmem).2
    rw [strEndsWith_hasSub partMarker n.data hend] at h1
    simp at h1
  · intro n
    unfold delete_part_files
    rw [List.mem_filter]
    constructor
    · rintro ⟨hn, hp⟩
      refine ⟨hn, ?_⟩
      simpa using hp
    · rintro ⟨hn, hp⟩
      exact ⟨hn, by simp [hp]⟩

/-- Witness for C9: a partial-suffixed name is deleted, a plain name
survives. -/
theorem c9_witness :
    ("2023-01.partial.csv" ∉ delete_part_files
        ["2023-01.partial.csv", "2023-01.csv"]) ∧
      "2023-01.csv" ∈ delete_part_files ["2023-01.partial.csv", "2023-01.csv"] := by
  have h := c9_delete_part_files ["2023-01.partial.csv", "2023-01.csv"]
  exact ⟨h.1 "2023-01.partial.csv" (by decide) (by decide),
    (h.2 "2023-01.csv").mpr (by decide)⟩

/-- Counterexample for C9 as stated: the name `x.partial.csv.bak` does not
carry the partial suffix, yet the cleanup pass deletes it, because the code
tests `'.partial.csv' in fname` (substring), not a suffix. -/
theorem c9_counterexample :
    delete_part_files ["2023-01-01.csv", "x.partial.csv.bak"] =
        ["2023-01-01.csv"] ∧
      strEndsWith partMarker "x.partial.csv.bak".data = false := by
  constructor
  · decide
  · decide

/-- Claim C8 (confirmed, retry decorator modelled from the spec): a retried
bucket download runs at most two attempts, sleeps a fixed five seconds
between the two attempts (and only then), a first-attempt success is final,
and when the final attempt fails its exception is propagated unmodified. -/
theorem c8_retry2 (σ E A : Type) (f : Nat → σ → σ × Except E A) (s : σ) :
    ((retry2 f s).tried = [0] ∨ (retry2 f s).tried = [0, 1]) ∧
    (∀ s1 a, f 0 s = (s1, .ok a) → retry2 f s = ⟨s1, .ok a, [0], []⟩) ∧
    (∀ s1 e, f 0 s = (s1, .error e) →
      retry2 f s = ⟨(f 1 s1).1, (f 1 s1).2, [0, 1], [5]⟩) ∧
    (∀ s1 e s2 e2, f 0 s = (s1, .error e) → f 1 s1 = (s2, .error e2) →
      (retry2 f s).res = .error e2) := by
  cases hf : f 0 s with
  | mk s1 r =>
    cases r with
    | ok a =>
      refine ⟨Or.inl (by simp [retry2, hf]), ?_, ?_, ?_⟩
      · intro s1' a' h
        simp only [Prod.mk.injEq, Except.ok.injEq] at h
        simp [retry2, hf, ← h.1, ← h.2]
      · intro s1' e h
        simp at h
      · intro s1' e s2 e2 h _
        simp at h
    | error e =>
      refine ⟨Or.inr (by simp [retry2, hf]), ?_, ?_, ?_⟩
      · intro s1' a h
        simp at h
      · intro s1' e' h
        simp only [Prod.mk.injEq, Except.error.injEq] at h
        simp [retry2, hf, ← h.1]
      · intro s1' e' s2 e2 h h2
        simp only [Prod.mk.injEq, Except.error.injEq] at h
        rw [← h.1] at h2
        simp [retry2, hf, h2]

/-- Witness for C8: with both attempts failing, the final outcome is the
second attempt's exception, unmodified, after one five-second sleep. -/
theorem c8_witness :
    (retry2 (fun att (s : Nat) => (s + 1, (.error (.apiError att) : Except PyErr Unit))) 0).res =
        .error (.apiError 1) ∧
      (retry2 (fun att (s : Nat) => (s + 1, (.error (.apiError att) : Except PyErr Unit))) 0).delays = [5] := by
  have h := c8_retry2 Nat PyErr Unit
    (fun att (s : Nat) => (s + 1, (.error (.apiError att) : Except PyErr Unit))) 0
  refine ⟨h.2.2.2 1 (.apiError 0) 2 (.apiError 1) rfl rfl, ?_⟩
  rw [h.2.2.1 1 (.apiError 0) rfl]

/-- Claim C3 (corrected): a state-of-charge bucket whose response is falsy or
lacks a `time_series` field is silently skipped -- no error, no write, the
run state untouched apart from the logged API call.  But a response carrying
an *empty* time series is not skipped: `_write_soe_csv` raises `ValueError`
on an empty series, so the bucket fails (and is retried, then the error is
caught by the per-bucket handler); the filesystem is still untouched. -/
theorem c3_amended (o : Oracle) (ren : Int → Int) (siteId : Nat) (w : Int)
    (pd : Bool) (st : St) :
    (o.soe w 0 = .ok none →
      download_soe_day o ren siteId w pd st =
        ⟨(st.1, st.2 ++ [Ev.apiCall .soe w 0]), .ok (), [0], []⟩) ∧
    (o.soe w 0 = .ok (some []) → o.soe w 1 = .ok (some []) →
      (download_soe_day o ren siteId w pd st).res =
          .error (.valueError "No timeseries") ∧
        (download_soe_day o ren siteId w pd st).st.1 = st.1) := by
  constructor
  · intro h
    unfold download_soe_day retry2 attempt_soe
    simp [h]
  · intro h0 h1
    unfold download_soe_day retry2 attempt_soe
    simp [h0, h1, write_soe_csv, write_energy_csv]

/-- Witness for C3: a keyless soe response is accepted silently; an empty soe
series leaves the filesystem untouched while erroring. -/
theorem c3_witness :
    download_soe_day oNone ren0 7 0 true ([], []) =
        ⟨([], [Ev.apiCall .soe 0 0]), .ok (), [0], []⟩ ∧
      (download_soe_day oSoeEmpty ren0 7 5 false ([], [])).st.1 = [] := by
  refine ⟨(c3_amended oNone ren0 7 0 true ([], [])).1 rfl, ?_⟩
  exact ((c3_amended oSoeEmpty ren0 7 5 false ([], [])).2 rfl rfl).2

set_option maxRecDepth 8000 in
/-- Counterexample for C3 as stated: when the soe response carries an empty
time series, the bucket is not silently skipped -- a `ValueError` is raised
and propagates out of the retried download. -/
theorem c3_counterexample :
    (download_soe_day oSoeEmpty ren0 7 0 true ([], [])).res =
      .error (.valueError "No timeseries") := by
  rfl

/-- Claim C2 (corrected): if any power record is missing one of the summand
fields, the whole bucket fails with an error (the writer never reports
success, independent of which record is broken) -- but the bucket file *is*
left partially written: the writer has already created the file and emitted
the header and every row before the offending record, so a partial file for
that bucket remains on such an error. -/
theorem c2_amended (ren : Int → Int) (ts : List Rec) (hne : ts ≠ [])
    (hbad : ∃ r ∈ ts, recFind r "solar_power" = none ∨
      recFind r "battery_power" = none ∨ recFind r "grid_power" = none ∨
      recFind r "generator_power" = none) :
    ∃ flds rows e, write_power_csv ren ts = .partFile flds rows e ∧
      rows.length < ts.length := by
  unfold write_power_csv
  rw [if_neg (by simp [hne])]
  dsimp only
  have herr : ∃ r ∈ ts, ∃ e, procPowerRec ren r = .error e := by
    rcases hbad with ⟨r, hr, hmiss⟩
    exact ⟨r, hr, procPowerRec_missing ren r hmiss⟩
  rcases writeRows_error_of_mem
      ((get_fieldnames_from_series ts ++ ["load_power"]).filter
        (fun n => !(EXCLUDED_COLUMNS.contains n)))
      (procPowerRec ren) ts herr with ⟨rows, eo, hw, hlen⟩
  rw [hw]
  exact ⟨_, rows, eo, rfl, hlen⟩

/-- Witness for C2: a two-record bucket whose second record lacks
`solar_power` ends in a `partFile` outcome with fewer rows than records. -/
theorem c2_witness :
    ∃ flds rows e, write_power_csv ren0 [stdRec, badRec] =
        .partFile flds rows e ∧
      rows.length < ([stdRec, badRec] : List Rec).length :=
  c2_amended ren0 [stdRec, badRec] (by decide)
    ⟨badRec, by decide, Or.inl (by decide)⟩

set_option maxRecDepth 8000 in
/-- Counterexample for C2 as stated: with a good record followed by one
missing `solar_power`, the bucket errors as claimed, but a partially written
file (header plus the first row) remains at the bucket's path -- the claim
that no partially written output file remains is false. -/
theorem c2_counterexample :
    (attempt_power oBad ren0 7 0 false 0 ([], [])).2 =
        .error (.keyError "solar_power") ∧
      fsHas (attempt_power oBad ren0 7 0 false 0 ([], [])).1.1
        (get_power_csv_name 7 0 false) = true ∧
      write_power_csv ren0 [stdRec, badRec] =
        .partFile ["timestamp", "solar_power", "battery_power", "grid_power",
            "load_power"]
          [[("timestamp", some 5), ("solar_power", some 1),
            ("battery_power", some 2), ("grid_power", some 3),
            ("load_power", some 10)]]
          (.keyError "solar_power") := by
  refine ⟨?_, ?_, ?_⟩
  · rfl
  · decide
  · decide

/-- Claim C6 (confirmed): every written power row's derived `load_power` cell
equals `solar_power + battery_power + grid_power + generator_power`; the
summands are read from the record before the excluded columns are removed,
so `generator_power` contributes to the sum even though it is excluded from
the written columns. -/
theorem c6_load_power (ren : Int → Int) (ts : List Rec) (flds : List String)
    (rows : List Row) (hw : write_power_csv ren ts = .complete flds rows)
    (i : Nat) (hi : i < ts.length) (s b g gn : Int)
    (hs : recFind (ts.get ⟨i, hi⟩) "solar_power" = some s)
    (hb : recFind (ts.get ⟨i, hi⟩) "battery_power" = some b)
    (hg : recFind (ts.get ⟨i, hi⟩) "grid_power" = some g)
    (hgn : recFind (ts.get ⟨i, hi⟩) "generator_power" = some gn) :
    "generator_power" ∉ flds ∧
      ∃ hr : i < rows.length,
        rowVal (rows.get ⟨i, hr⟩) "load_power" = some (s + b + g + gn) := by
  rcases write_power_csv_complete_inv ren ts flds rows hw with ⟨hflds, hrows⟩
  have hgen : "generator_power" ∉ flds := by
    rw [hflds]
    intro hmem
    have h2 := (List.mem_filter.mp hmem).2
    simp [EXCLUDED_COLUMNS] at h2
  have hlen := writeRows_ok_length flds (procPowerRec ren) ts rows hrows
  have hr : i < rows.length := by rw [hlen]; exact hi
  rcases writeRows_ok_get flds (procPowerRec ren) ts rows hrows i hi hr with
    ⟨r2, hproc, hrow⟩
  rcases (procPowerRec_ok ren _ r2).mp hproc with
    ⟨tv, s', b', g', gn', htv, hs', hb', hg', hgn', hr2⟩
  rw [hs] at hs'
  rw [hb] at hb'
  rw [hg] at hg'
  rw [hgn] at hgn'
  obtain rfl : s = s' := Option.some.inj hs'
  obtain rfl : b = b' := Option.some.inj hb'
  obtain rfl : g = g' := Option.some.inj hg'
  obtain rfl : gn = gn' := Option.some.inj hgn'
  refine ⟨hgen, hr, ?_⟩
  rw [hrow]
  have hmemlp : "load_power" ∈ flds := by
    rw [hflds]
    apply List.mem_filter.mpr
    exact ⟨List.mem_append_right _ (by simp), by decide⟩
  rw [rowVal_rowOf_mem flds r2 "load_power" hmemlp, hr2]
  rw [recFind_remove_excluded _ _ (by decide)]
  exact recFind_recSet_self _ _ _

/-- Witness for C6: for summands 1, 2, 3, 4 the written `load_power` is 10,
and `generator_power` is not among the written columns. -/
theorem c6_witness :
    "generator_power" ∉ (["timestamp", "solar_power", "battery_power",
        "grid_power", "load_power"] : List String) ∧
      ∃ hr : 0 < ([[("timestamp", some (5 : Int)), ("solar_power", some 1),
          ("battery_power", some 2), ("grid_power", some 3),
          ("load_power", some 10)]] : List Row).length,
        rowVal (([[("timestamp", some (5 : Int)), ("solar_power", some 1),
            ("battery_power", some 2), ("grid_power", some 3),
            ("load_power", some 10)]] : List Row).get ⟨0, hr⟩) "load_power" =
          some 10 := by
  have h := c6_load_power ren0 [stdRec]
    ["timestamp", "solar_power", "battery_power", "grid_power", "load_power"]
    [[("timestamp", some 5), ("solar_power", some 1), ("battery_power", some 2),
      ("grid_power", some 3), ("load_power", some 10)]]
    (by decide) 0 (by decide) 1 2 3 4 (by decide) (by decide) (by decide)
    (by decide)
  simpa using h

/-- Claim C7 (corrected): the written column list is the union of all keys
over all records in first-seen order minus the excluded-column denylist
(deterministic in the input order), and a record missing a non-derived
column *other than the timestamp* yields an empty cell rather than an error;
a record missing the `timestamp` field fails the whole bucket, because the
writer normalizes `ts['timestamp']` in place for every record.  For records
`[{a:1, b:2}, {a:3, c:4}]` the reconciled column order is `[a, b, c]`. -/
theorem c7_amended (ren : Int → Int) (ts : List Rec) (flds : List String)
    (rows : List Row) :
    (write_energy_csv ren ts = .complete flds rows →
      flds = (get_fieldnames_from_series ts).filter
        (fun n => !(EXCLUDED_COLUMNS.contains n))) ∧
    (get_fieldnames_from_series
        [[("a", 1), ("b", 2)], [("a", 3), ("c", 4)]] = ["a", "b", "c"]) ∧
    (write_energy_csv ren ts = .complete flds rows →
      ∀ (i : Nat) (hi : i < ts.length) (k : String), k ≠ "timestamp" →
        recFind (ts.get ⟨i, hi⟩) k = none →
        ∃ hr : i < rows.length, rowVal (rows.get ⟨i, hr⟩) k = none) ∧
    (∀ r ∈ ts, recFind r "timestamp" = none → ts ≠ [] →
      ∃ flds2 rows2 e, write_energy_csv ren ts = .partFile flds2 rows2 e) := by
  refine ⟨?_, by decide, ?_, ?_⟩
  · intro hw
    exact (write_energy_csv_complete_inv ren ts flds rows hw).1
  · intro hw i hi k hk hkn
    rcases write_energy_csv_complete_inv ren ts flds rows hw with ⟨hflds, hrows⟩
    have hlen := writeRows_ok_length flds (procPlainRec ren) ts rows hrows
    have hr : i < rows.length := by rw [hlen]; exact hi
    rcases writeRows_ok_get flds (procPlainRec ren) ts rows hrows i hi hr with
      ⟨r2, hproc, hrow⟩
    rcases (procPlainRec_ok ren _ r2).mp hproc with ⟨tv, htv, hr2⟩
    refine ⟨hr, ?_⟩
    rw [hrow]
    by_cases hmem : k ∈ flds
    · rw [rowVal_rowOf_mem flds r2 k hmem, hr2]
      apply recFind_remove_excluded_none
      rw [recFind_recSet_ne _ _ _ _ hk]
      exact hkn
    · exact rowVal_rowOf_not_mem flds r2 k hmem
  · intro r hrm htsnone hne
    unfold write_energy_csv
    rw [if_neg (by simp [hne])]
    dsimp only
    rcases writeRows_error_of_mem
        ((get_fieldnames_from_series ts).filter
          (fun n => !(EXCLUDED_COLUMNS.contains n)))
        (procPlainRec ren) ts
        ⟨r, hrm, _, procPlainRec_missing ren r htsnone⟩ with ⟨rows2, eo, hw2, _⟩
    rw [hw2]
    exact ⟨_, rows2, eo, rfl⟩

/-- Witness for C7: a record missing column `a` renders an empty cell for it
in its written row. -/
theorem c7_witness :
    ∃ hr : 1 < ([[("timestamp", some (0 : Int)), ("a", some 1)],
        [("timestamp", some 3), ("a", none)]] : List Row).length,
      rowVal (([[("timestamp", some (0 : Int)), ("a", some 1)],
          [("timestamp", some 3), ("a", none)]] : List Row).get ⟨1, hr⟩) "a" =
        none := by
  have h := (c7_amended ren0 [[("timestamp", 0), ("a", 1)], [("timestamp", 3)]]
    ["timestamp", "a"]
    [[("timestamp", some 0), ("a", some 1)],
      [("timestamp", some 3), ("a", none)]]).2.2.1
    (by decide) 1 (by decide) "a" (by decide) (by decide)
  exact h

/-- Counterexample for C7 as stated: `timestamp` is a non-derived column,
yet a record missing it does not render as empty cells -- the bucket fails
with a `KeyError`, the file left holding the header and the first row. -/
theorem c7_counterexample :
    write_energy_csv ren0 [[("timestamp", 0), ("a", 1)], [("a", 2)]] =
      .partFile ["timestamp", "a"] [[("timestamp", some 0), ("a", some 1)]]
        (.keyError "timestamp") := by
  decide

/-- Claim C4 (corrected): a permanent power fetch failure for one bucket is
caught inside the per-bucket loop, logged as a bucket-level error, and the
run continues with the next older buckets from an unchanged filesystem --
but, because the power and soe downloads for a day share one `try` block,
the soe fetch for that same day is skipped, so a failure of the power kind
*does* prevent the soe kind from being attempted for the same bucket. -/
theorem c4_amended (o : Oracle) (ren : Int → Int) (siteId : Nat) (w : Int)
    (ws : List Int) (fs : FS) (l : List Ev) (e0 e1 : PyErr)
    (h0 : o.power w 0 = .error e0) (h1 : o.power w 1 = .error e1) :
    run_power_from o ren siteId (w :: ws) true (fs, l) =
      run_power_from o ren siteId ws false
        (fs, l ++ [Ev.announced (get_power_csv_name siteId w false),
          Ev.apiCall .power w 0, Ev.apiCall .power w 1,
          Ev.errCaught w e1]) := by
  show run_power_from o ren siteId ws false
      (process_power_day o ren siteId (fs, l) w true) = _
  rw [process_power_day_power_fail o ren siteId fs l w e0 e1 h0 h1]

/-- Witness for C4: the failing head bucket contributes exactly the announce,
the two failed attempts and the caught error, and the rest of the run is the
run over the remaining buckets. -/
theorem c4_witness :
    run_power_from oFail ren0 7 [951955200, 951868800] true ([], []) =
      run_power_from oFail ren0 7 [951868800] false
        ([], [Ev.announced (get_power_csv_name 7 951955200 false),
          Ev.apiCall .power 951955200 0, Ev.apiCall .power 951955200 1,
          Ev.errCaught 951955200 (.apiError 1)]) :=
  c4_amended oFail ren0 7 951955200 [951868800] [] [] (.apiError 1)
    (.apiError 1) rfl rfl

set_option maxRecDepth 20000 in
/-- Counterexample for C4 as stated: with a permanent power failure injected
for the single day bucket at wall clock 86400, the error is caught and
logged and the older bucket's power and soe files are written -- but the soe
kind is never even attempted for the failed bucket, so its soe file is
missing, refuting the claim that a failure of one kind's bucket leaves all
other kinds' files for that bucket correctly written. -/
theorem c4_counterexample :
    Ev.apiCall .soe 951955200 0 ∉
        (download_power_data oFail ren0 7 utcTZ 951868790 951955205 0 []).2 ∧
      Ev.errCaught 951955200 (.apiError 1) ∈
        (download_power_data oFail ren0 7 utcTZ 951868790 951955205 0 []).2 ∧
      fsHas (download_power_data oFail ren0 7 utcTZ 951868790 951955205 0 []).1
        (get_soe_csv_name 7 951868800 false) = true ∧
      fsHas (download_power_data oFail ren0 7 utcTZ 951868790 951955205 0 []).1
        (get_soe_csv_name 7 951955200 false) = false ∧
      fsHas (download_power_data oFail ren0 7 utcTZ 951868790 951955205 0 []).1
        (get_soe_csv_name 7 951955200 true) = false := by
  unfold download_power_data
  rw [powerDates_cex2]
  refine ⟨by decide, by decide, by decide, by decide, by decide⟩

theorem process_power_day_partial_write (o : Oracle) (ren : Int → Int)
    (siteId : Nat) (fs : FS) (l : List Ev) (w : Int) (ts : List Rec)
    (flds : List String) (rows : List Row)
    (hok : o.power w 0 = .ok (some ts))
    (hwc : write_power_csv ren ts = .complete flds rows) :
    fsHas (process_power_day o ren siteId (fs, l) w true).1
      (get_power_csv_name siteId w true) = true := by
  have hk : (get_power_csv_name siteId w true).kind ≠ Kind.soe := by
    intro hh
    simp [get_power_csv_name] at hh
  unfold process_power_day
  dsimp only
  rw [if_pos (by simp)]
  rw [download_power_day_ok o ren siteId w true _ ts flds rows hok hwc]
  dsimp only
  split <;>
  · try dsimp only
    rw [download_soe_day_fs_other o ren siteId w true _ _ hk]
    exact fsHas_fsWrite_self _ _ _ _

theorem process_energy_month_partial_write (o : Oracle) (ren : Int → Int)
    (siteId : Nat) (fs : FS) (l : List Ev) (sw : Int) (ts : List Rec)
    (flds : List String) (rows : List Row)
    (hok : o.energy sw 0 = .ok (some ts))
    (hwc : write_energy_csv ren ts = .complete flds rows) :
    fsHas (process_energy_month o ren siteId (fs, l) sw true).1
      (get_energy_csv_name siteId sw true) = true := by
  unfold process_energy_month
  dsimp only
  rw [if_pos (by simp)]
  rw [download_energy_month_ok o ren siteId sw true _ ts flds rows hok hwc]
  dsimp only
  exact fsHas_fsWrite_self _ _ _ _

theorem process_power_day_soe_skipped (o : Oracle) (ren : Int → Int)
    (siteId : Nat) (fs : FS) (w : Int) (e0 e1 : PyErr)
    (h0 : o.power w 0 = .error e0) (h1 : o.power w 1 = .error e1) :
    Ev.apiCall .soe w 0 ∉ (process_power_day o ren siteId (fs, []) w true).2 := by
  rw [process_power_day_power_fail o ren siteId fs [] w e0 e1 h0 h1]
  simp

theorem process_power_day_soe_attempted (o : Oracle) (ren : Int → Int)
    (siteId : Nat) (fs : FS) (l : List Ev) (w : Int) (ts : List Rec)
    (flds : List String) (rows : List Row)
    (hok : o.power w 0 = .ok (some ts))
    (hwc : write_power_csv ren ts = .complete flds rows) :
    Ev.apiCall .soe w 0 ∈ (process_power_day o ren siteId (fs, l) w true).2 := by
  unfold process_power_day
  dsimp only
  rw [if_pos (by simp)]
  rw [download_power_day_ok o ren siteId w true _ ts flds rows hok hwc]
  dsimp only
  split
  · try dsimp only
    exact List.mem_append_left _ (download_soe_day_mem o ren siteId w true _)
  · exact download_soe_day_mem o ren siteId w true _

/-- Claim C5 (corrected): for power and energy buckets the pipeline skips the
fetch iff a complete (non-partial) file already exists at that exact
bucket's path, and the most recent bucket of each kind is fetched and
written under the partial-suffixed path unconditionally of on-disk state.
But an soe bucket has no check of its own: the decision is the power
bucket's -- the soe fetch is attempted exactly when the power bucket is
fetched and its download succeeds, so a complete soe file never causes a
skip by itself, and a power failure suppresses the soe fetch. -/
theorem c5_amended (o : Oracle) (ren : Int → Int) (siteId : Nat) :
    (∀ (fs : FS) (w : Int),
      process_power_day o ren siteId (fs, []) w false = (fs, []) ↔
        fsHas fs (get_power_csv_name siteId w false) = true) ∧
    (∀ (fs : FS) (sw : Int),
      process_energy_month o ren siteId (fs, []) sw false = (fs, []) ↔
        fsHas fs (get_energy_csv_name siteId sw false) = true) ∧
    (∀ (fs : FS) (l : List Ev) (w : Int) (ts : List Rec) (flds : List String)
      (rows : List Row), o.power w 0 = .ok (some ts) →
      write_power_csv ren ts = .complete flds rows →
      fsHas (process_power_day o ren siteId (fs, l) w true).1
        (get_power_csv_name siteId w true) = true) ∧
    (∀ (fs : FS) (l : List Ev) (sw : Int) (ts : List Rec) (flds : List String)
      (rows : List Row), o.energy sw 0 = .ok (some ts) →
      write_energy_csv ren ts = .complete flds rows →
      fsHas (process_energy_month o ren siteId (fs, l) sw true).1
        (get_energy_csv_name siteId sw true) = true) ∧
    (∀ (fs : FS) (w : Int) (e0 e1 : PyErr),
      o.power w 0 = .error e0 → o.power w 1 = .error e1 →
      Ev.apiCall .soe w 0 ∉ (process_power_day o ren siteId (fs, []) w true).2) ∧
    (∀ (fs : FS) (l : List Ev) (w : Int) (ts : List Rec) (flds : List String)
      (rows : List Row), o.power w 0 = .ok (some ts) →
      write_power_csv ren ts = .complete flds rows →
      Ev.apiCall .soe w 0 ∈ (process_power_day o ren siteId (fs, l) w true).2) := by
  refine ⟨?_, ?_, ?_, ?_, ?_, ?_⟩
  · intro fs w
    constructor
    · intro h
      by_contra hf
      have hf2 : fsHas fs (get_power_csv_name siteId w false) = false := by
        cases hfs : fsHas fs (get_power_csv_name siteId w false)
        · rfl
        · exact absurd hfs hf
      have hlen := process_power_day_snd_len o ren siteId (fs, []) w false
        (by simp [hf2])
      rw [h] at hlen
      simp at hlen
    · exact process_power_day_skip o ren siteId (fs, []) w
  · intro fs sw
    constructor
    · intro h
      by_contra hf
      have hf2 : fsHas fs (get_energy_csv_name siteId sw false) = false := by
        cases hfs : fsHas fs (get_energy_csv_name siteId sw false)
        · rfl
        · exact absurd hfs hf
      have hlen := process_energy_month_snd_len o ren siteId (fs, []) sw false
        (by simp [hf2])
      rw [h] at hlen
      simp at hlen
    · exact process_energy_month_skip o ren siteId (fs, []) sw
  · intro fs l w ts flds rows hok hwc
    exact process_power_day_partial_write o ren siteId fs l w ts flds rows hok hwc
  · intro fs l sw ts flds rows hok hwc
    exact process_energy_month_partial_write o ren siteId fs l sw ts flds rows
      hok hwc
  · intro fs w e0 e1 h0 h1
    exact process_power_day_soe_skipped o ren siteId fs w e0 e1 h0 h1
  · intro fs l w ts flds rows hok hwc
    exact process_power_day_soe_attempted o ren siteId fs l w ts flds rows
      hok hwc

set_option maxRecDepth 20000 in
/-- Witness for C5: with a complete power file on disk the bucket is skipped;
with the disk empty, the most recent power and energy buckets land at the
partial paths; a successful power day triggers the soe fetch, and a failed
one suppresses it. -/
theorem c5_witness :
    (process_power_day oGood ren0 7
        ([(get_power_csv_name 7 951868800 false, ["x"], [])], [])
        951868800 false =
      ([(get_power_csv_name 7 951868800 false, ["x"], [])], [])) ∧
    fsHas (process_power_day oGood ren0 7 ([], []) 951868800 true).1
      (get_power_csv_name 7 951868800 true) = true ∧
    Ev.apiCall .soe 951868800 0 ∈
      (process_power_day oGood ren0 7 ([], []) 951868800 true).2 ∧
    Ev.apiCall .soe 951955200 0 ∉
      (process_power_day oFail ren0 7 ([], []) 951955200 true).2 ∧
    fsHas (process_energy_month oGood ren0 7 ([], []) 951868800 true).1
      (get_energy_csv_name 7 951868800 true) = true := by
  have h := c5_amended oGood ren0 7
  have hf := c5_amended oFail ren0 7
  refine ⟨(h.1 _ 951868800).mpr (by decide),
    h.2.2.1 [] [] 951868800 [stdRec]
      ["timestamp", "solar_power", "battery_power", "grid_power", "load_power"]
      [[("timestamp", some 5), ("solar_power", some 1),
        ("battery_power", some 2), ("grid_power", some 3),
        ("load_power", some 10)]] rfl (by decide),
    h.2.2.2.2.2 [] [] 951868800 [stdRec]
      ["timestamp", "solar_power", "battery_power", "grid_power", "load_power"]
      [[("timestamp", some 5), ("solar_power", some 1),
        ("battery_power", some 2), ("grid_power", some 3),
        ("load_power", some 10)]] rfl (by decide),
    hf.2.2.2.2.1 [] 951955200 (.apiError 1) (.apiError 1) rfl rfl,
    h.2.2.2.1 [] [] 951868800 [stdRec]
      ["timestamp", "solar_power", "battery_power", "grid_power"]
      [[("timestamp", some 5), ("solar_power", some 1),
        ("battery_power", some 2), ("grid_power", some 3)]] rfl (by decide)⟩

set_option maxRecDepth 20000 in
/-- Counterexample for C5 as stated: an soe bucket whose complete file is on
disk is still fetched when the power file is absent -- the skip decision
tests only the power path, so "skip iff a complete file exists at that exact
bucket's path" fails for the soe kind. -/
theorem c5_counterexample :
    fsHas [(get_soe_csv_name 7 951868800 false, ["timestamp"], [])]
        (get_soe_csv_name 7 951868800 false) = true ∧
      Ev.apiCall .soe 951868800 0 ∈
        (process_power_day oGood ren0 7
          ([(get_soe_csv_name 7 951868800 false, ["timestamp"], [])], [])
          951868800 false).2 := by
  exact ⟨by decide, by decide⟩

theorem zero_off_bound : (0 : Int).natAbs ≤ 50400 := by decide

/-- Claim C1 (corrected): for any installation instant `inst` and current
local wall clock `W` (with `off0` the current offset), the day-mode bucket
sequence is strictly descending and contiguous in calendar days (each
successor is exactly one day older); it starts at the day containing now iff
that day's local midnight instant lies strictly after `inst`; every emitted
day's midnight instant lies strictly after `inst` and the first omitted
day's does not -- in particular the day containing `inst` is *excluded*
(its local midnight instant is not strictly after `inst`), so the sequence
ends one day after the day containing the installation instant, not at it.
In month mode the sequence is likewise strictly descending, contiguous in
calendar months (each successor bucket ends one second before the current
start and begins on the first of that month, re-localized); it starts at the
month containing now iff today's 23:59:59 instant lies strictly after
`inst`; every emitted bucket's end instant lies strictly after `inst`, and
the sequence stops exactly when the next older month's end instant would
not. -/
theorem c1_amended (tz : TZ) (inst W off0 : Int) (h0 : off0.natAbs ≤ 50400)
    (hmono : ∀ a b : Int, a ≤ b → a - tz.off a ≤ b - tz.off b)
    (hoff0 : off0 = tz.off (dayStart W)) :
    List.Chain' (fun a b => b = a - 86400) (powerDates tz inst W off0) ∧
    ((powerDates tz inst W off0).head? = some (dayStart W) ↔
      dayStart W - off0 > inst) ∧
    (∀ x ∈ powerDates tz inst W off0,
      (x = dayStart W ∧ dayStart W - off0 > inst) ∨ x - tz.off x > inst) ∧
    (∀ wl, (powerDates tz inst W off0).getLast? = some wl →
      (wl - 86400) - tz.off (wl - 86400) ≤ inst) ∧
    (∀ wI, wI - tz.off wI = inst → dayStart wI ∉ powerDates tz inst W off0) ∧
    List.Chain' (fun b b' => b'.ew = b.sw - 1 ∧ b'.eoff = b.soff ∧
        b'.sw = monthStartWall (b.sw - 1) ∧
        b'.soff = tz.off (monthStartWall (b.sw - 1)))
      (energyBuckets tz inst W off0 h0) ∧
    List.Chain' (fun b b' => b'.ew < b.ew ∧ b'.sw < b.sw)
      (energyBuckets tz inst W off0 h0) ∧
    ((energyBuckets tz inst W off0 h0).head? =
        some ⟨monthStartWall W, off0, dayStart W + 86399, off0⟩ ↔
      (dayStart W + 86399) - off0 > inst) ∧
    (∀ b ∈ energyBuckets tz inst W off0 h0, b.ew - b.eoff > inst) ∧
    (∀ b, (energyBuckets tz inst W off0 h0).getLast? = some b →
      (b.sw - 1) - b.soff ≤ inst) := by
  have hmem : ∀ x ∈ powerDates tz inst W off0,
      (x = dayStart W ∧ dayStart W - off0 > inst) ∨ x - tz.off x > inst := by
    intro x hx
    unfold powerDates at hx
    split at hx
    case isTrue h =>
      rcases List.mem_cons.mp hx with rfl | hx
      · exact Or.inl ⟨rfl, h⟩
      · exact Or.inr (powerDatesFrom_guard tz inst _ x hx)
    case isFalse h => simp at hx
  have hchain : List.Chain' (fun a b => b = a - 86400)
      (powerDates tz inst W off0) := by
    unfold powerDates
    split
    · refine List.chain'_cons'.mpr ⟨?_, powerDatesFrom_chain tz inst _⟩
      intro b hb
      rcases powerDatesFrom_head tz inst (dayStart W - 86400) with hnil | hhd
      · rw [hnil] at hb
        simp at hb
      · rw [hhd] at hb
        simp at hb
        omega
    · simp
  have hhead : (powerDates tz inst W off0).head? = some (dayStart W) ↔
      dayStart W - off0 > inst := by
    unfold powerDates
    split
    case isTrue h => exact iff_of_true rfl h
    case isFalse h => exact iff_of_false (by simp) h
  have hlast : ∀ wl, (powerDates tz inst W off0).getLast? = some wl →
      (wl - 86400) - tz.off (wl - 86400) ≤ inst := by
    intro wl hl
    unfold powerDates at hl
    split at hl
    case isTrue h =>
      cases h2 : powerDatesFrom tz inst (dayStart W - 86400) with
      | nil =>
        rw [h2] at hl
        simp at hl
        subst hl
        have h3 := (powerDatesFrom_nil_iff tz inst (dayStart W - 86400)).mp h2
        omega
      | cons a lrest =>
        rw [h2, List.getLast?_cons_cons] at hl
        exact powerDatesFrom_getLast tz inst (dayStart W - 86400) wl (h2 ▸ hl)
    case isFalse h => simp at hl
  have hexcl : ∀ wI, wI - tz.off wI = inst →
      dayStart wI ∉ powerDates tz inst W off0 := by
    intro wI hwI hin
    rcases hmem _ hin with ⟨heq, hg⟩ | hg
    · rw [hoff0] at hg
      have h2 := hmono (dayStart wI) wI (dayStart_le wI)
      rw [heq] at h2
      omega
    · have h2 := hmono (dayStart wI) wI (dayStart_le wI)
      omega
  have hechain : List.Chain' (fun b b' => b'.ew = b.sw - 1 ∧ b'.eoff = b.soff ∧
      b'.sw = monthStartWall (b.sw - 1) ∧
      b'.soff = tz.off (monthStartWall (b.sw - 1)))
      (energyBuckets tz inst W off0 h0) := by
    unfold energyBuckets
    exact energyFrom_chain tz inst _ _ _ _ _ _ _
  have hedesc : List.Chain' (fun b b' => b'.ew < b.ew ∧ b'.sw < b.sw)
      (energyBuckets tz inst W off0 h0) := by
    unfold energyBuckets
    exact energyFrom_desc tz inst _ _ _ _ _ _ _
  have hehead : (energyBuckets tz inst W off0 h0).head? =
      some ⟨monthStartWall W, off0, dayStart W + 86399, off0⟩ ↔
      (dayStart W + 86399) - off0 > inst := by
    unfold energyBuckets
    rw [energyFrom]
    split
    case isTrue h => exact iff_of_true rfl h
    case isFalse h => exact iff_of_false (by simp) h
  have heguard : ∀ b ∈ energyBuckets tz inst W off0 h0,
      b.ew - b.eoff > inst := by
    intro b hb
    unfold energyBuckets at hb
    exact energyFrom_guard tz inst _ _ _ _ _ _ _ b hb
  have helast : ∀ b, (energyBuckets tz inst W off0 h0).getLast? = some b →
      (b.sw - 1) - b.soff ≤ inst := by
    intro b hb
    unfold energyBuckets at hb
    exact energyFrom_getLast tz inst _ _ _ _ _ _ _ b hb
  exact ⟨hchain, hhead, hmem, hlast, hexcl, hechain, hedesc, hehead, heguard,
    helast⟩

/-- Witness for C1 at the UTC timezone, `inst` ten seconds before the epoch
and now five seconds into epoch day 1: the day sequence starts at day 1's
midnight, the day containing `inst` (day -1) is excluded, and the month
sequence starts with the bucket from the month's first midnight to today's
23:59:59. -/
theorem c1_witness :
    (powerDates utcTZ (-10) 86405 0).head? = some (dayStart 86405) ∧
      dayStart (-10) ∉ powerDates utcTZ (-10) 86405 0 ∧
      (energyBuckets utcTZ (-10) 86405 0 zero_off_bound).head? =
        some ⟨monthStartWall 86405, 0, dayStart 86405 + 86399, 0⟩ := by
  have h := c1_amended utcTZ (-10) 86405 0 zero_off_bound
    (fun a b hab => by simpa [utcTZ] using hab) rfl
  exact ⟨h.2.1.mpr (by decide), h.2.2.2.2.1 (-10) rfl,
    h.2.2.2.2.2.2.2.1.mpr (by decide)⟩

/-- Counterexample for C1 as stated: with the installation instant at noon of
epoch day 0 (UTC) and now early on day 2, the produced day sequence is
`[172800, 86400]` -- the midnights of days 2 and 1 -- and the midnight of
the day containing the installation instant (day 0) is not produced: the
sequence does not end at the day containing the installation instant
inclusive. -/
theorem c1_counterexample :
    powerDates utcTZ 43200 172805 0 = [172800, 86400] ∧
      dayStart 43200 = 0 ∧
      (0 : Int) ∉ powerDates utcTZ 43200 172805 0 := by
  refine ⟨powerDates_cex1, by decide, ?_⟩
  rw [powerDates_cex1]
  decide

end TeslaSolar
